import Mathlib

/-!
Verification development for the workflow state synchronization subsystem:
the `/api/workflows/sync` route (GET/POST handlers, workspace membership
verification with its TTL cache) and the client workflow registry store
(`setDeploymentStatus`, `setActiveWorkspace`, `resetWorkflowStores`).

The TypeScript code is shallowly embedded: JSON values are an inductive
type, database state and caches are explicit values threaded through pure
functions, and the handlers return the HTTP response together with the
list of database write operations they issue.  JavaScript peculiarities
that the code relies on are modelled explicitly: `null` and `undefined`
are distinguished where the code distinguishes them (strict `!==`
comparisons), string truthiness treats the empty string as falsy, and
`Date` values may be invalid (`NaN` timestamps, which compare unequal to
themselves).
-/

namespace SimSync

/-- JSON values (the result of `req.json()` / the payload of
`NextResponse.json`).  Arrays and objects are encoded with cons-style
constructors so that decidable equality can be derived; `mkArr`/`mkObj`
below build them from lists.  Structural equality of this type stands in
for `JSON.stringify` equality of the corresponding runtime values. -/
inductive Json where
  | null
  | bool (b : Bool)
  | num (n : Int)
  | str (s : String)
  | arrNil
  | arrCons (head tail : Json)
  | objNil
  | objCons (key : String) (value rest : Json)
deriving Repr, DecidableEq

/-- Build a JSON array from a list of values. -/
def Json.mkArr (items : List Json) : Json :=
  items.foldr Json.arrCons Json.arrNil

/-- Build a JSON object from a list of key/value fields. -/
def Json.mkObj (fields : List (String × Json)) : Json :=
  fields.foldr (fun kv r => Json.objCons kv.1 kv.2 r) Json.objNil

/-- The field list of a JSON object, `none` on non-objects. -/
def Json.objFields? : Json → Option (List (String × Json))
  | .objNil => some []
  | .objCons k v r => (Json.objFields? r).map (fun l => (k, v) :: l)
  | _ => none

/-- The item list of a JSON array, `none` on non-arrays. -/
def Json.arrItems? : Json → Option (List Json)
  | .arrNil => some []
  | .arrCons h t => (Json.arrItems? t).map (fun l => h :: l)
  | _ => none

/-- Look up a field of a JSON object by key (first occurrence). -/
def getField (fields : List (String × Json)) (key : String) : Option Json :=
  (fields.find? (fun kv => kv.1 = key)).map (fun kv => kv.2)

/-- A JavaScript `Date` value: `some t` is a valid date with millisecond
timestamp `t`, `none` is an Invalid Date (whose `getTime()` is `NaN`). -/
abbrev JsDate := Option Int

/-- Model of `new Date(string)`: strings that denote a valid instant map
injectively to their millisecond timestamp, all others give an Invalid
Date.  The model uses the decimal reading of the string as the instant. -/
def parseDateMs (s : String) : JsDate := s.toInt?

/-- JavaScript truthiness of a `string | null | undefined` value: only a
nonempty string is truthy. -/
def truthyStr : Option String → Bool
  | some s => s ≠ ""
  | none => false

/-- JavaScript `a || b` on `string | undefined` values. -/
def jsOrStr (a b : Option String) : Option String :=
  if truthyStr a then a else b

/-- `marketplaceData` objects accepted by `MarketplaceDataSchema`
(`{ id: string, status: 'owner' | 'temp' }`). -/
structure MarketplaceData where
  id : String
  status : String
deriving Repr, DecidableEq

/-- A workflow state as produced by `WorkflowStateSchema.parse`: unknown
keys are stripped, `loops`/`parallels` default to `{}`, and `deployedAt`
strings are transformed to `Date`s.  Optional fields use `none` for
"absent".  `marketplaceData` distinguishes absent (`none`) from `null`
(`some none`). -/
structure WorkflowState where
  blocks : List (String × Json)
  edges : List Json
  loops : List (String × Json) := []
  parallels : List (String × Json) := []
  lastSaved : Option Int := none
  isDeployed : Option Bool := none
  deployedAt : Option JsDate := none
  isPublished : Option Bool := none
  marketplaceData : Option (Option MarketplaceData) := none
deriving Repr, DecidableEq

/-- A client workflow as produced by `WorkflowSchema.parse`.
`folderId` is `.nullable().optional()`: `none` = absent, `some none` =
`null`, `some (some s)` = a string. -/
structure ClientWorkflow where
  id : String
  name : String
  description : Option String := none
  color : Option String := none
  state : WorkflowState
  marketplaceData : Option (Option MarketplaceData) := none
  workspaceId : Option String := none
  folderId : Option (Option String) := none
deriving Repr, DecidableEq

/-- The parsed sync payload (`SyncPayloadSchema`): a record of workflows
keyed by id, plus an optional workspace id. -/
structure SyncPayload where
  workflows : List (String × ClientWorkflow)
  workspaceId : Option String := none
deriving Repr, DecidableEq

/-- `MarketplaceDataSchema` (`.nullable().optional()`) applied to the
`marketplaceData` field of an object: absent passes as `undefined`,
`null` passes as `null`, objects must have a string `id` and a `status`
of `'owner'` or `'temp'`. -/
def parseMarketplaceField (fields : List (String × Json)) :
    Except String (Option (Option MarketplaceData)) :=
  match getField fields "marketplaceData" with
  | none => .ok none
  | some .null => .ok (some none)
  | some j =>
    match j.objFields? with
    | some mf =>
      match getField mf "id", getField mf "status" with
      | some (.str i), some (.str st) =>
        if st = "owner" ∨ st = "temp" then .ok (some (some ⟨i, st⟩))
        else .error "marketplaceData.status: invalid enum value"
      | _, _ => .error "marketplaceData: invalid shape"
    | none => .error "marketplaceData: expected object"

/-- An optional string field (`z.string().optional()`). -/
def optStrField (fields : List (String × Json)) (key : String) :
    Except String (Option String) :=
  match getField fields key with
  | none => .ok none
  | some (.str s) => .ok (some s)
  | some _ => .error (key ++ ": expected string")

/-- A required string field (`z.string()`). -/
def reqStrField (fields : List (String × Json)) (key : String) :
    Except String String :=
  match getField fields key with
  | some (.str s) => .ok s
  | _ => .error (key ++ ": required string")

/-- An optional number field (`z.number().optional()`). -/
def optNumField (fields : List (String × Json)) (key : String) :
    Except String (Option Int) :=
  match getField fields key with
  | none => .ok none
  | some (.num n) => .ok (some n)
  | some _ => .error (key ++ ": expected number")

/-- An optional boolean field (`z.boolean().optional()`). -/
def optBoolField (fields : List (String × Json)) (key : String) :
    Except String (Option Bool) :=
  match getField fields key with
  | none => .ok none
  | some (.bool b) => .ok (some b)
  | some _ => .error (key ++ ": expected boolean")

/-- A record field with a `{}` default (`z.record(z.any()).default({})`):
absent defaults to the empty record, otherwise an object is required. -/
def recordFieldWithDefault (fields : List (String × Json)) (key : String) :
    Except String (List (String × Json)) :=
  match getField fields key with
  | none => .ok []
  | some j =>
    match j.objFields? with
    | some f => .ok f
    | none => .error (key ++ ": expected record")

/-- `WorkflowStateSchema.parse`. -/
def parseWorkflowState (j : Json) : Except String WorkflowState :=
  match j.objFields? with
  | none => .error "state: expected object"
  | some f => do
    let blocks ←
      match getField f "blocks" with
      | some bj =>
        match bj.objFields? with
        | some b => .ok b
        | none => .error "state.blocks: expected record"
      | none => .error "state.blocks: required"
    let edges ←
      match getField f "edges" with
      | some ej =>
        match ej.arrItems? with
        | some e => .ok e
        | none => .error "state.edges: expected array"
      | none => .error "state.edges: required"
    let loops ← recordFieldWithDefault f "loops"
    let parallels ← recordFieldWithDefault f "parallels"
    let lastSaved ← optNumField f "lastSaved"
    let isDeployed ← optBoolField f "isDeployed"
    let deployedAt ←
      match getField f "deployedAt" with
      | none => .ok none
      | some (.str s) => .ok (some (parseDateMs s))
      | some _ => .error "state.deployedAt: expected string or date"
    let isPublished ← optBoolField f "isPublished"
    let marketplaceData ← parseMarketplaceField f
    .ok { blocks, edges, loops, parallels, lastSaved, isDeployed,
          deployedAt, isPublished, marketplaceData }

/-- `WorkflowSchema.parse`. -/
def parseWorkflow (j : Json) : Except String ClientWorkflow :=
  match j.objFields? with
  | none => .error "workflow: expected object"
  | some f => do
    let id ← reqStrField f "id"
    let name ← reqStrField f "name"
    let description ← optStrField f "description"
    let color ← optStrField f "color"
    let state ←
      match getField f "state" with
      | some sj => parseWorkflowState sj
      | none => .error "state: required"
    let marketplaceData ← parseMarketplaceField f
    let workspaceId ← optStrField f "workspaceId"
    let folderId ←
      match getField f "folderId" with
      | none => .ok none
      | some .null => .ok (some none)
      | some (.str s) => .ok (some (some s))
      | some _ => .error "folderId: expected string or null"
    .ok { id, name, description, color, state, marketplaceData,
          workspaceId, folderId }

/-- Parse each entry of the `workflows` record. -/
def parseWorkflowEntries :
    List (String × Json) → Except String (List (String × ClientWorkflow))
  | [] => .ok []
  | (k, j) :: rest => do
    let w ← parseWorkflow j
    let ws ← parseWorkflowEntries rest
    .ok ((k, w) :: ws)

/-- `SyncPayloadSchema.parse` applied to the request body. -/
def parseSyncPayload (body : Json) : Except String SyncPayload :=
  match body.objFields? with
  | none => .error "payload: expected object"
  | some f => do
    let workflows ←
      match getField f "workflows" with
      | some wj =>
        match wj.objFields? with
        | some entries => parseWorkflowEntries entries
        | none => .error "workflows: expected record"
      | none => .error "workflows: required"
    let workspaceId ← optStrField f "workspaceId"
    .ok { workflows, workspaceId }

/-! ## Workspace membership cache and verification -/

/-- An entry of `workspaceMembershipCache`. -/
structure CacheEntry where
  role : String
  expires : Int
deriving Repr, DecidableEq

/-- The membership cache, a JS `Map` modelled as an association list in
insertion order with unique keys. -/
abbrev Cache := List (String × CacheEntry)

/-- `MAX_CACHE_SIZE = 1000`. -/
def MAX_CACHE_SIZE : Nat := 1000

/-- `CACHE_TTL = 60000` (one minute). -/
def CACHE_TTL : Int := 60000

/-- `Map.prototype.get`. -/
def cacheGet (c : Cache) (k : String) : Option CacheEntry :=
  (c.find? (fun e => e.1 = k)).map (fun e => e.2)

/-- `Map.prototype.set`: replaces in place when the key exists,
otherwise appends (JS `Map`s preserve insertion order; keys in a `Map`
are unique, so replacing the first occurrence is replacement). -/
def cacheSet : Cache → String → CacheEntry → Cache
  | [], k, v => [(k, v)]
  | e :: rest, k, v =>
    if e.1 = k then (k, v) :: rest else e :: cacheSet rest k v

/-- Stable insertion into a list sorted ascending by `expires`. -/
def insertByExpires (e : String × CacheEntry) : Cache → Cache
  | [] => [e]
  | f :: rest =>
    if e.2.expires ≤ f.2.expires then e :: f :: rest
    else f :: insertByExpires e rest

/-- The JS `Array.prototype.sort` call with the numeric comparator
`(a, b) => a[1].expires - b[1].expires`: a stable ascending sort
(modelled by stable insertion sort, which produces the same list as
any stable sort). -/
def sortByExpires : Cache → Cache
  | [] => []
  | e :: rest => insertByExpires e (sortByExpires rest)

/-- `cleanupExpiredCacheEntries`: drop entries with `expires <= now`;
if more than `MAX_CACHE_SIZE` remain, sort ascending by `expires` (the
JS numeric comparator) and delete the surplus soonest-expiring ones. -/
def cleanupExpiredCacheEntries (now : Int) (cache : Cache) : Cache :=
  let afterExpiry := cache.filter (fun e => e.2.expires > now)
  if afterExpiry.length > MAX_CACHE_SIZE then
    let sorted := sortByExpires afterExpiry
    let toRemove := sorted.take (afterExpiry.length - MAX_CACHE_SIZE)
    afterExpiry.filter (fun e => ¬ toRemove.any (fun r => r.1 = e.1))
  else afterExpiry

/-- Database row sets and external collaborators visible to the route.
`membership` models the `workspaceMember` query: `.error` is a thrown
query error, `.ok none` no membership row, `.ok (some role)` a found
row.  `normSave` models `saveWorkflowToNormalizedTables`. -/
structure NormInput where
  blocks : List (String × Json)
  edges : List Json
  loops : List (String × Json)
  parallels : List (String × Json)
  lastSaved : Option Int
  isDeployed : Option Bool
  deployedAt : Option JsDate
  deploymentStatuses : List (String × Json)
  hasActiveSchedule : Option Bool
  hasActiveWebhook : Option Bool
deriving Repr, DecidableEq

/-- The result shape of `saveWorkflowToNormalizedTables` as used by the
route (`success`, optional `jsonBlob`, optional `error`). -/
structure NormResult where
  success : Bool
  jsonBlob : Option WorkflowState := none
  error : Option String := none
deriving Repr, DecidableEq

/-- A row of the `workflow` table.  `none` on nullable columns is SQL
`NULL`.  Timestamps are milliseconds. -/
structure DbWorkflow where
  id : String
  userId : String
  workspaceId : Option String := none
  folderId : Option String := none
  name : String
  description : Option String := none
  color : Option String := none
  state : WorkflowState
  marketplaceData : Option MarketplaceData := none
  isDeployed : Bool := false
  deployedAt : Option JsDate := none
  deployedState : Option WorkflowState := none
  lastSynced : Int := 0
  createdAt : Int := 0
  updatedAt : Int := 0
deriving Repr, DecidableEq

/-- The server environment for one request: current database contents,
the external query/save collaborators, and the current time. -/
structure Env where
  workflows : List DbWorkflow
  workspaces : List String
  membership : String → String → Except Unit (Option String)
  normSave : String → NormInput → NormResult
  now : Int

/-- Result of `verifyWorkspaceMembership`: the returned role, the cache
after the call, and whether the database was queried. -/
structure VerifyResult where
  role : Option String
  cache : Cache
  queried : Bool

/-- The database-query path of `verifyWorkspaceMembership`: on a found
membership, cache the role for `CACHE_TTL` and return it; on no row or
a query error, return `null` without caching. -/
def queryMembership (env : Env) (cache : Cache)
    (cacheKey userId workspaceId : String) : VerifyResult :=
  match env.membership userId workspaceId with
  | .error _ => ⟨none, cache, true⟩
  | .ok none => ⟨none, cache, true⟩
  | .ok (some role) =>
    ⟨some role, cacheSet cache cacheKey ⟨role, env.now + CACHE_TTL⟩, true⟩

/-- The cache as it stands after the opportunistic cleanup at the top
of `verifyWorkspaceMembership` (run only when the cache holds more
than `MAX_CACHE_SIZE / 2` entries). -/
def cacheAfterCleanup (now : Int) (cache0 : Cache) : Cache :=
  if cache0.length > MAX_CACHE_SIZE / 2 then
    cleanupExpiredCacheEntries now cache0
  else cache0

/-- `verifyWorkspaceMembership`: opportunistic cleanup when the cache
holds more than `MAX_CACHE_SIZE / 2` entries, then a cache lookup under
the key `userId:workspaceId`; a fresh hit returns the cached role
without querying, otherwise the database is queried. -/
def verifyWorkspaceMembership (env : Env) (cache0 : Cache)
    (userId workspaceId : String) : VerifyResult :=
  let cache := cacheAfterCleanup env.now cache0
  let cacheKey := userId ++ ":" ++ workspaceId
  match cacheGet cache cacheKey with
  | some entry =>
    if entry.expires > env.now then ⟨some entry.role, cache, false⟩
    else queryMembership env cache cacheKey userId workspaceId
  | none => queryMembership env cache cacheKey userId workspaceId

/-! ## Route responses and database operations -/

/-- The JSON body and status of a `NextResponse.json` reply.  Fields
default to "absent". -/
structure ApiResponse where
  status : Nat
  error : Option String := none
  code : Option String := none
  message : Option String := none
  details : Option String := none
  success : Bool := false
  operationCount : Option Nat := none
  workflowCount : Option Nat := none
  data : Option (List DbWorkflow) := none
deriving Repr, DecidableEq

/-- The values of `db.insert(workflow).values({...})` in the POST
handler.  `deployedState` is explicitly `null` for new workflows. -/
structure InsertValues where
  id : String
  userId : String
  workspaceId : Option String
  folderId : Option String
  name : String
  description : Option String
  color : Option String
  state : WorkflowState
  marketplaceData : Option MarketplaceData
  isDeployed : Bool
  deployedAt : Option JsDate
  deployedState : Option WorkflowState
  lastSynced : Int
  createdAt : Int
  updatedAt : Int
deriving Repr, DecidableEq

/-- The `updateData` object built for an existing workflow.  An outer
`none` means the field was not assigned.  For `description`, `color`
and `workspaceId` the assigned value may itself be `undefined` (inner
`none`), which the ORM skips; for `folderId`, `marketplaceData` and
`deployedAt` the inner `none` is `null` and is written.
`deployedState` is never assigned by the sync route (the code
deliberately preserves it), but the field is kept here so that this
frame condition is statable. -/
structure UpdateData where
  name : Option String := none
  description : Option (Option String) := none
  color : Option (Option String) := none
  workspaceId : Option (Option String) := none
  folderId : Option (Option String) := none
  marketplaceData : Option (Option MarketplaceData) := none
  state : Option WorkflowState := none
  isDeployed : Option Bool := none
  deployedAt : Option (Option JsDate) := none
  deployedState : Option (Option WorkflowState) := none
  lastSynced : Option Int := none
  updatedAt : Option Int := none
deriving Repr, DecidableEq

/-- A write operation pushed onto `operations` (POST) or issued by the
orphaned-workflow migration (GET). -/
inductive Op where
  | insert (values : InsertValues)
  | update (id : String) (data : UpdateData)
  | migrateOrphaned (userId workspaceId : String) (updatedAt : Int)
deriving Repr, DecidableEq

/-- A recorded call to `saveWorkflowToNormalizedTables`. -/
structure NormCall where
  workflowId : String
  input : NormInput
deriving Repr, DecidableEq

/-! ## POST helpers -/

/-- The legacy published-workflow migration applied to each client
workflow before any comparison: when `state.isPublished` is truthy and
`marketplaceData` is falsy (`undefined` or `null`), it is replaced by
`{ id: workflow.id, status: 'owner' }`. -/
def effMarketplaceData (cw : ClientWorkflow) : Option (Option MarketplaceData) :=
  if cw.state.isPublished = some true ∧
      (cw.marketplaceData = none ∨ cw.marketplaceData = some none) then
    some (some ⟨cw.id, "owner"⟩)
  else cw.marketplaceData

/-- JS `x || null` on a `T | null | undefined` marketplace value. -/
def mdOrNull : Option (Option MarketplaceData) → Option MarketplaceData
  | some (some m) => some m
  | _ => none

/-- JS `clientWorkflow.folderId || null`: `undefined`, `null` and the
empty string all collapse to `null`. -/
def folderOrNull : Option (Option String) → Option String
  | some (some s) => if s = "" then none else some s
  | _ => none

/-- The argument object passed to `saveWorkflowToNormalizedTables`.
`SyncPayloadSchema` strips unknown keys, so the parsed state never has
`deploymentStatuses`, `hasActiveSchedule` or `hasActiveWebhook`: those
arguments are always `{}` resp. `undefined`. -/
def normInputOf (cw : ClientWorkflow) : NormInput :=
  { blocks := cw.state.blocks
    edges := cw.state.edges
    loops := cw.state.loops
    parallels := cw.state.parallels
    lastSaved := cw.state.lastSaved
    isDeployed := cw.state.isDeployed
    deployedAt := cw.state.deployedAt
    deploymentStatuses := []
    hasActiveSchedule := none
    hasActiveWebhook := none }

/-- `stateToSave`: the normalized save's `jsonBlob` when the save
succeeded and returned one, otherwise the client state. -/
def stateToSaveOf (res : NormResult) (cw : ClientWorkflow) : WorkflowState :=
  match res.success, res.jsonBlob with
  | true, some blob => blob
  | _, _ => cw.state

/-- JS strict `===` between a `string | null` database value and a
`string | undefined` client value: equal only when both are the same
string (`null === undefined` is false). -/
def jsSameStr (dbv cv : Option String) : Prop :=
  ∃ s, dbv = some s ∧ cv = some s

instance (dbv cv : Option String) : Decidable (jsSameStr dbv cv) := by
  unfold jsSameStr
  exact match dbv, cv with
  | some a, some b =>
    if h : a = b then .isTrue ⟨a, rfl, by rw [h]⟩
    else .isFalse (by rintro ⟨s, hs, hs2⟩; cases hs; cases hs2; exact h rfl)
  | some a, none => .isFalse (by rintro ⟨s, _, hs2⟩; cases hs2)
  | none, b => .isFalse (by rintro ⟨s, hs, _⟩; cases hs)

/-- JS strict `===` between the `getTime()` images of two
`Date | null` values: `null` equals `null`, valid dates compare by
timestamp, and an Invalid Date (`NaN`) equals nothing, itself
included. -/
def jsTimeEq : Option JsDate → Option JsDate → Prop
  | none, none => True
  | some (some a), some (some b) => a = b
  | _, _ => False

instance (a b : Option JsDate) : Decidable (jsTimeEq a b) := by
  unfold jsTimeEq
  exact match a, b with
  | none, none => .isTrue trivial
  | some (some x), some (some y) => inferInstanceAs (Decidable (x = y))
  | none, some _ => .isFalse id
  | some (some _), none => .isFalse id
  | some (some _), some none => .isFalse id
  | some none, _ => .isFalse id

/-- `canUpdate`: the user owns the row, or a (truthy) payload workspace
id was supplied and the verified role is owner/admin/member. -/
def canUpdateRow (uid : String) (payloadWs : Option String)
    (userRole : Option String) (dbw : DbWorkflow) : Bool :=
  dbw.userId = uid ∨
    (truthyStr payloadWs ∧
      (userRole = some "owner" ∨ userRole = some "admin" ∨
        userRole = some "member"))

/-- `clientWorkflow.state.isDeployed || false`. -/
def clientIsDeployed (cw : ClientWorkflow) : Bool :=
  cw.state.isDeployed = some true

/-- The field-by-field diff of the POST handler for an existing row:
`none` when nothing needs updating, otherwise the `updateData` object
(with `lastSynced`/`updatedAt` stamped).  Each field is assigned iff
its comparison found a difference, exactly as in the handler. -/
def computeUpdateData (now : Int) (dbw : DbWorkflow) (cw : ClientWorkflow)
    (effMd : Option (Option MarketplaceData)) (effWs : Option String)
    (stateToSave : WorkflowState) : Option UpdateData :=
  let nameDiff := dbw.name ≠ cw.name
  let descDiff := ¬ jsSameStr dbw.description cw.description
  let colorDiff := ¬ jsSameStr dbw.color cw.color
  let wsDiff := ¬ jsSameStr dbw.workspaceId effWs
  let folderDiff := dbw.folderId ≠ folderOrNull cw.folderId
  let mdDiff := some dbw.marketplaceData ≠ effMd
  let stateDiff := dbw.state ≠ stateToSave
  let isDeployedDiff := dbw.isDeployed ≠ clientIsDeployed cw
  let deployedAtDiff := ¬ jsTimeEq dbw.deployedAt cw.state.deployedAt
  if nameDiff ∨ descDiff ∨ colorDiff ∨ wsDiff ∨ folderDiff ∨ mdDiff ∨
      stateDiff ∨ isDeployedDiff ∨ deployedAtDiff then
    some
      { name := if nameDiff then some cw.name else none
        description := if descDiff then some cw.description else none
        color := if colorDiff then some cw.color else none
        workspaceId := if wsDiff then some effWs else none
        folderId := if folderDiff then some (folderOrNull cw.folderId) else none
        marketplaceData := if mdDiff then some (mdOrNull effMd) else none
        state := if stateDiff then some stateToSave else none
        isDeployed := if isDeployedDiff then some (clientIsDeployed cw) else none
        deployedAt := if deployedAtDiff then some cw.state.deployedAt else none
        deployedState := none
        lastSynced := some now
        updatedAt := some now }
  else none

/-- `dbWorkflowMap.get`, over the rows fetched for this request. -/
def findDbWorkflow (rows : List DbWorkflow) (id : String) : Option DbWorkflow :=
  rows.find? (fun w => w.id = id)

/-- The rows fetched by both handlers: by workspace id when one is
(truthily) given, else by owner. -/
def dbRowsForSync (env : Env) (uid : String) (payloadWs : Option String) :
    List DbWorkflow :=
  if truthyStr payloadWs then
    env.workflows.filter (fun w => w.workspaceId = payloadWs)
  else
    env.workflows.filter (fun w => w.userId = uid)

/-- One iteration of the POST loop over `Object.entries(clientWorkflows)`:
the normalized-tables save always happens; then an insert for unknown
ids, a permission check and a conditional diff-update for known ids. -/
def processEntry (env : Env) (uid : String) (payloadWs : Option String)
    (userRole : Option String) (rows : List DbWorkflow)
    (entry : String × ClientWorkflow) : NormCall × List Op :=
  let id := entry.1
  let cw := entry.2
  let effMd := effMarketplaceData cw
  let effWs := jsOrStr cw.workspaceId payloadWs
  let input := normInputOf cw
  let res := env.normSave id input
  let stateToSave := stateToSaveOf res cw
  match findDbWorkflow rows id with
  | none =>
    (⟨id, input⟩,
      [Op.insert
        { id := cw.id
          userId := uid
          workspaceId := effWs
          folderId := folderOrNull cw.folderId
          name := cw.name
          description := cw.description
          color := cw.color
          state := stateToSave
          marketplaceData := mdOrNull effMd
          isDeployed := clientIsDeployed cw
          deployedAt := cw.state.deployedAt
          deployedState := none
          lastSynced := env.now
          createdAt := env.now
          updatedAt := env.now }])
  | some dbw =>
    if canUpdateRow uid payloadWs userRole dbw then
      match computeUpdateData env.now dbw cw effMd effWs stateToSave with
      | some ud => (⟨id, input⟩, [Op.update id ud])
      | none => (⟨id, input⟩, [])
    else (⟨id, input⟩, [])

/-- The whole POST loop: each entry is processed independently and the
pushed operations are concatenated in order. -/
def processEntries (env : Env) (uid : String) (payloadWs : Option String)
    (userRole : Option String) (rows : List DbWorkflow) :
    List (String × ClientWorkflow) → List NormCall × List Op
  | [] => ([], [])
  | e :: rest =>
    let r := processEntry env uid payloadWs userRole rows e
    let rs := processEntries env uid payloadWs userRole rows rest
    (r.1 :: rs.1, r.2 ++ rs.2)

/-- Outcome of the shared workspace-validation block: either an early
404/403 response, or permission to continue with the verified role. -/
inductive GateResult where
  | reject (response : ApiResponse) (cache : Cache)
  | allow (userRole : Option String) (cache : Cache)

/-- The workspace-validation block of both handlers: skipped for a
falsy workspace id; 404 `WORKSPACE_NOT_FOUND` when no workspace row
exists; 403 `WORKSPACE_ACCESS_DENIED` when membership verification
returns `null`. -/
def workspaceGate (env : Env) (cache : Cache) (uid : String)
    (payloadWs : Option String) : GateResult :=
  match payloadWs with
  | none => .allow none cache
  | some wsid =>
    if wsid = "" then .allow none cache
    else if env.workspaces.any (fun w => w = wsid) then
      let v := verifyWorkspaceMembership env cache uid wsid
      match v.role with
      | none =>
        .reject
          { status := 403, error := some "Access denied to this workspace",
            code := some "WORKSPACE_ACCESS_DENIED" } v.cache
      | some r => .allow (some r) v.cache
    else
      .reject
        { status := 404, error := some "Workspace not found",
          code := some "WORKSPACE_NOT_FOUND" } cache

/-- Everything the POST handler produces: the HTTP response, the calls
made to `saveWorkflowToNormalizedTables`, the `workflow`-table write
operations, and the membership cache afterwards. -/
structure PostResult where
  response : ApiResponse
  normCalls : List NormCall
  ops : List Op
  cache : Cache

/-- The POST `/api/workflows/sync` handler. -/
def POST (env : Env) (cache : Cache) (session : Option String)
    (body : Json) : PostResult :=
  match session with
  | none => ⟨{ status := 401, error := some "Unauthorized" }, [], [], cache⟩
  | some uid =>
    match parseSyncPayload body with
    | .error e =>
      ⟨{ status := 400, error := some "Invalid request data",
         details := some e }, [], [], cache⟩
    | .ok payload =>
      if payload.workflows.isEmpty ∧
          ¬ (dbRowsForSync env uid payload.workspaceId).isEmpty then
        ⟨{ status := 409, error := some "Sync rejected to prevent data loss",
           message := some
             "Client sent empty workflows, but user has existing workflows in database" },
          [], [], cache⟩
      else
        match workspaceGate env cache uid payload.workspaceId with
        | .reject resp cache1 => ⟨resp, [], [], cache1⟩
        | .allow userRole cache1 =>
          let rows := dbRowsForSync env uid payload.workspaceId
          let r := processEntries env uid payload.workspaceId userRole rows
            payload.workflows
          ⟨{ status := 200, success := true,
             operationCount := some r.2.length,
             workflowCount := some payload.workflows.length },
            r.1, r.2, cache1⟩

/-- The batch update of `migrateOrphanedWorkflows` (issued only when
the user has rows with a `NULL` workspace id). -/
def migrateOps (env : Env) (uid wsid : String) : List Op :=
  if (env.workflows.filter
      (fun w => w.userId = uid ∧ w.workspaceId = none)).isEmpty then []
  else [Op.migrateOrphaned uid wsid env.now]

/-- Everything the GET handler produces. -/
structure GetResult where
  response : ApiResponse
  ops : List Op
  cache : Cache

/-- The GET `/api/workflows/sync` handler. -/
def GET (env : Env) (cache : Cache) (session : Option String)
    (queryWs : Option String) : GetResult :=
  match session with
  | none => ⟨{ status := 401, error := some "Unauthorized" }, [], cache⟩
  | some uid =>
    match workspaceGate env cache uid queryWs with
    | .reject resp cache1 => ⟨resp, [], cache1⟩
    | .allow _ cache1 =>
      let migration :=
        match queryWs with
        | some wsid => if wsid = "" then [] else migrateOps env uid wsid
        | none => []
      let rows := dbRowsForSync env uid queryWs
      ⟨{ status := 200, data := some rows }, migration, cache1⟩

/-! ## Client stores (workflow registry, workflow store, subblock store) -/

/-- A per-workflow deployment status entry.  `needsRedeployment` is
optional because entries written before the flag existed lack it
(the code reads it with `?? false`). -/
structure DeploymentStatus where
  isDeployed : Bool
  deployedAt : Option Int := none
  apiKey : Option String := none
  needsRedeployment : Option Bool := none
deriving Repr, DecidableEq

/-- Lookup in a `deploymentStatuses` record. -/
def statusGet (m : List (String × DeploymentStatus)) (k : String) :
    Option DeploymentStatus :=
  (m.find? (fun e => e.1 = k)).map (fun e => e.2)

/-- JS object spread `{...m, [k]: v}`: an existing key keeps its
position with the new value, a new key is appended (object keys are
unique, so replacing the first occurrence is replacement). -/
def statusSet : List (String × DeploymentStatus) → String → DeploymentStatus →
    List (String × DeploymentStatus)
  | [], k, v => [(k, v)]
  | e :: rest, k, v =>
    if e.1 = k then (k, v) :: rest else e :: statusSet rest k v

/-- Workflow metadata held in the registry's `workflows` map (only the
parts the verified operations observe). -/
structure WorkflowMetadata where
  id : String
  name : String
deriving Repr, DecidableEq

/-- The registry store's state. -/
structure RegistryState where
  workflows : List (String × WorkflowMetadata) := []
  activeWorkflowId : Option String := none
  activeWorkspaceId : Option String := none
  isLoading : Bool := false
  error : Option String := none
  deploymentStatuses : List (String × DeploymentStatus) := []
deriving Repr, DecidableEq

/-- One history snapshot (`history.present` and entries of
`past`/`future`). -/
structure HistoryEntry where
  stateBlocks : List (String × Json) := []
  stateEdges : List Json := []
  stateLoops : List (String × Json) := []
  stateParallels : List (String × Json) := []
  stateIsDeployed : Bool := false
  stateDeployedAt : Option Int := none
  timestamp : Int
  action : String
  subblockValues : List (String × Json) := []
deriving Repr, DecidableEq

/-- The undo/redo history of the workflow store. -/
structure History where
  past : List HistoryEntry := []
  present : HistoryEntry
  future : List HistoryEntry := []
deriving Repr, DecidableEq

/-- The workflow store's state (the currently-edited graph). -/
structure WorkflowStoreState where
  blocks : List (String × Json) := []
  edges : List Json := []
  loops : List (String × Json) := []
  parallels : List (String × Json) := []
  isDeployed : Bool := false
  deployedAt : Option Int := none
  needsRedeployment : Bool := false
  deploymentStatuses : List (String × DeploymentStatus) := []
  hasActiveSchedule : Bool := false
  history : History
  lastSaved : Option Int := none
deriving Repr, DecidableEq

/-- The subblock store's state. -/
structure SubBlockStoreState where
  workflowValues : List (String × Json) := []
  toolParams : List (String × Json) := []
deriving Repr, DecidableEq

/-- A persisted workflow state blob as read back by
`loadWorkflowState` (fields may be missing in old blobs). -/
structure PersistedWorkflowState where
  blocks : List (String × Json) := []
  edges : List Json := []
  loops : List (String × Json) := []
  parallels : List (String × Json) := []
  isDeployed : Option Bool := none
  deployedAt : Option Int := none
  deploymentStatuses : Option (List (String × DeploymentStatus)) := none
  needsRedeployment : Option Bool := none
  lastSaved : Option Int := none
deriving Repr, DecidableEq

/-- The client-side environment: the current time and the persisted
blobs readable through `loadWorkflowState`. -/
structure ClientEnv where
  now : Int
  storage : String → Option PersistedWorkflowState

/-- Result of `setDeploymentStatus`: the two stores afterwards and the
`saveWorkflowState` writes issued. -/
structure SetDeploymentResult where
  registry : RegistryState
  workflowStore : WorkflowStoreState
  saves : List (String × PersistedWorkflowState)
  syncTriggered : Bool
deriving DecidableEq

/-- `deployedAt || (isDeployed ? new Date() : undefined)` (a `Date`
argument is always truthy). -/
def effDeployedAt (deployedAt : Option Int) (isDeployed : Bool)
    (now : Int) : Option Int :=
  match deployedAt with
  | some d => some d
  | none => if isDeployed then some now else none

/-- The deployment-status entry written everywhere by
`setDeploymentStatus`: `needsRedeployment` is reset when newly
deployed, else the previous entry's flag (`?? false`) is kept; `prev`
is the entry previously stored at the location being written. -/
def newStatusEntry (isDeployed : Bool) (deployedAt : Option Int)
    (apiKey : Option String) (now : Int) (prev : Option DeploymentStatus) :
    DeploymentStatus :=
  { isDeployed
    deployedAt := effDeployedAt deployedAt isDeployed now
    apiKey
    needsRedeployment :=
      some (if isDeployed then false
            else ((prev.bind (fun p => p.needsRedeployment)).getD false)) }

/-- `setDeploymentStatus(workflowId, isDeployed, deployedAt, apiKey)`:
resolve the workflow id (falling back to the active workflow, bailing
out when neither is truthy), replace the registry's status entry,
mirror the legacy fields and the status entry into the workflow store
only for the active workflow, and rewrite the persisted blob (when one
exists) with the new entry, its legacy fields changed only for the
active workflow.  Finally a server sync is triggered. -/
def setDeploymentStatus (env : ClientEnv) (reg : RegistryState)
    (wf : WorkflowStoreState) (workflowId0 : Option String)
    (isDeployed : Bool) (deployedAt : Option Int) (apiKey : Option String) :
    SetDeploymentResult :=
  let wid? := if truthyStr workflowId0 then workflowId0 else reg.activeWorkflowId
  match wid? with
  | none => ⟨reg, wf, [], false⟩
  | some wid =>
    if wid = "" then ⟨reg, wf, [], false⟩
    else
      let regEntry := newStatusEntry isDeployed deployedAt apiKey env.now
        (statusGet reg.deploymentStatuses wid)
      let reg' := { reg with
        deploymentStatuses := statusSet reg.deploymentStatuses wid regEntry }
      let active := reg'.activeWorkflowId
      let wf' :=
        if active = some wid then
          { wf with
            isDeployed
            deployedAt := effDeployedAt deployedAt isDeployed env.now
            needsRedeployment := if isDeployed then false else wf.needsRedeployment
            deploymentStatuses := statusSet wf.deploymentStatuses wid
              (newStatusEntry isDeployed deployedAt apiKey env.now
                (statusGet wf.deploymentStatuses wid)) }
        else wf
      let saves :=
        match env.storage wid with
        | none => []
        | some ws =>
          [(wid,
            { ws with
              isDeployed :=
                if active = some wid then some isDeployed else ws.isDeployed
              deployedAt :=
                if active = some wid then
                  effDeployedAt deployedAt isDeployed env.now
                else ws.deployedAt
              deploymentStatuses :=
                some (statusSet (ws.deploymentStatuses.getD []) wid
                  (newStatusEntry isDeployed deployedAt apiKey env.now
                    (statusGet (ws.deploymentStatuses.getD []) wid))) })]
      ⟨reg', wf', saves, true⟩

/-- The fresh single-entry history written by `resetWorkflowStores`. -/
def freshHistory (now : Int) : History :=
  { past := []
    present :=
      { stateBlocks := [], stateEdges := [], stateLoops := []
        stateParallels := [], stateIsDeployed := false
        stateDeployedAt := none, timestamp := now
        action := "Initial state", subblockValues := [] }
    future := [] }

/-- `resetWorkflowStores`: a partial `setState` on the workflow store
(note the code does not list `parallels` or `needsRedeployment`, so
those fields survive) and a full reset of the subblock store. -/
def resetWorkflowStores (now : Int) (wf : WorkflowStoreState)
    (_sb : SubBlockStoreState) : WorkflowStoreState × SubBlockStoreState :=
  ({ wf with
      blocks := []
      edges := []
      loops := []
      isDeployed := false
      deployedAt := none
      deploymentStatuses := []
      hasActiveSchedule := false
      history := freshHistory now
      lastSaved := some now },
    { workflowValues := [], toolParams := [] })

/-- The client store ensemble touched by `setActiveWorkspace`, plus the
module-level workspace-transition flag. -/
structure ClientStores where
  registry : RegistryState
  workflowStore : WorkflowStoreState
  subblock : SubBlockStoreState
  transitioning : Bool
deriving DecidableEq

/-- Result of `setActiveWorkspace`: the stores afterwards, the
`localStorage` writes, and whether `fetchWorkflowsFromDB` and
`resetRegistryInitialization` were invoked. -/
structure SetWorkspaceResult where
  stores : ClientStores
  storageWrites : List (String × String)
  fetchTriggered : Bool
  registryInitReset : Bool
deriving DecidableEq

/-- `setActiveWorkspace(id)`: a no-op when `id` is already active or a
transition is in progress; otherwise the workflow/subblock stores are
reset, the active-workspace key is persisted, the registry is cleared
and repointed, and the workspace's workflows are fetched. -/
def setActiveWorkspace (now : Int) (s : ClientStores) (id : String) :
    SetWorkspaceResult :=
  if s.registry.activeWorkspaceId = some id then ⟨s, [], false, false⟩
  else if s.transitioning then ⟨s, [], false, false⟩
  else
    let r := resetWorkflowStores now s.workflowStore s.subblock
    let reg' := { s.registry with
      isLoading := true
      workflows := []
      activeWorkspaceId := some id
      activeWorkflowId := none }
    ⟨⟨reg', r.1, r.2, true⟩, [("active-workspace-id", id)], true, true⟩

/-! ## Predicates used by the claim statements -/

/-- Does an operation touch the `workflow`-table row with the given id?
(Inserts by their `values.id`, updates by their `where` id; the GET
orphan migration never appears in POST output.) -/
def opTargetsId : Op → String → Bool
  | .insert v, i => v.id = i
  | .update j _, i => j = i
  | .migrateOrphaned _ _ _, _ => false

/-- An operation neither writes nor clears `deployedState` beyond the
explicit `null` initialisation of a fresh insert. -/
def opPreservesDeployedState : Op → Bool
  | .insert v => v.deployedState = none
  | .update _ ud => ud.deployedState = none
  | .migrateOrphaned _ _ _ => true

/-- Every state value written to the legacy `state` column by this list
of operations equals `s` (inserts write their `values.state`; updates
write state only when `updateData.state` was assigned). -/
def entryWritesState (ops : List Op) (s : WorkflowState) : Prop :=
  ∀ op ∈ ops,
    (∀ v, op = Op.insert v → v.state = s) ∧
    (∀ i ud s', op = Op.update i ud → ud.state = some s' → s' = s)

/-- `JSON.stringify` image of a `marketplaceData` column value
(`null` or an object). -/
def mdJson : Option MarketplaceData → Json
  | none => .null
  | some m => Json.mkObj [("id", .str m.id), ("status", .str m.status)]

/-- The comparison list of the diff-before-write claim, read literally:
name, description, color and effective workspaceId by strict equality,
folderId with absent as null, marketplaceData by JSON serialization of
the client payload's value *as given* (an absent value has no
serialization), state by serialization against the state chosen for
saving, isDeployed with the client value defaulting to false, and
deployedAt as millisecond timestamps with absent as null. -/
def claimComparedFieldsDiffer (dbw : DbWorkflow) (cw : ClientWorkflow)
    (effWs : Option String) (chosen : WorkflowState) : Prop :=
  dbw.name ≠ cw.name ∨
  ¬ jsSameStr dbw.description cw.description ∨
  ¬ jsSameStr dbw.color cw.color ∨
  ¬ jsSameStr dbw.workspaceId effWs ∨
  dbw.folderId ≠ folderOrNull cw.folderId ∨
  some (mdJson dbw.marketplaceData) ≠ cw.marketplaceData.map mdJson ∨
  dbw.state ≠ chosen ∨
  dbw.isDeployed ≠ clientIsDeployed cw ∨
  ¬ jsTimeEq dbw.deployedAt cw.state.deployedAt

instance (dbw : DbWorkflow) (cw : ClientWorkflow) (effWs : Option String)
    (chosen : WorkflowState) :
    Decidable (claimComparedFieldsDiffer dbw cw effWs chosen) := by
  unfold claimComparedFieldsDiffer
  infer_instance

/-- The same comparison list, but with the client `marketplaceData`
taken after the route's legacy-published migration (which substitutes
`{ id, status: 'owner' }` when the client state has a truthy
`isPublished` and no `marketplaceData`).  This is the comparison the
code actually performs. -/
def comparedFieldsDifferMigrated (dbw : DbWorkflow) (cw : ClientWorkflow)
    (effWs : Option String) (chosen : WorkflowState) : Prop :=
  dbw.name ≠ cw.name ∨
  ¬ jsSameStr dbw.description cw.description ∨
  ¬ jsSameStr dbw.color cw.color ∨
  ¬ jsSameStr dbw.workspaceId effWs ∨
  dbw.folderId ≠ folderOrNull cw.folderId ∨
  some (mdJson dbw.marketplaceData) ≠ (effMarketplaceData cw).map mdJson ∨
  dbw.state ≠ chosen ∨
  dbw.isDeployed ≠ clientIsDeployed cw ∨
  ¬ jsTimeEq dbw.deployedAt cw.state.deployedAt

instance (dbw : DbWorkflow) (cw : ClientWorkflow) (effWs : Option String)
    (chosen : WorkflowState) :
    Decidable (comparedFieldsDifferMigrated dbw cw effWs chosen) := by
  unfold comparedFieldsDifferMigrated
  infer_instance

/-! ## Concrete fixtures for witnesses and counterexamples -/

/-- An empty workflow graph state. -/
def stEmpty : WorkflowState := { blocks := [], edges := [] }

/-- A minimal valid client workflow JSON value. -/
def basicWorkflowJson (id : String) : Json :=
  Json.mkObj [("id", .str id), ("name", .str "n"),
    ("state", Json.mkObj [("blocks", Json.mkObj []), ("edges", Json.mkArr [])])]

/-- The parse of `basicWorkflowJson id`. -/
def basicWorkflow (id : String) : ClientWorkflow :=
  { id, name := "n", state := stEmpty }

/-- A payload body whose `workflows` record is empty. -/
def emptyWorkflowsBody : Json := Json.mkObj [("workflows", Json.mkObj [])]

/-- An empty-workflows payload pointing at workspace `W`. -/
def emptyWorkflowsBodyW : Json :=
  Json.mkObj [("workflows", Json.mkObj []), ("workspaceId", .str "W")]

/-- A payload carrying one new workflow `w2`. -/
def newWorkflowBody : Json :=
  Json.mkObj [("workflows", Json.mkObj [("w2", basicWorkflowJson "w2")])]

/-- A payload carrying workflow `w1`. -/
def w1Body : Json :=
  Json.mkObj [("workflows", Json.mkObj [("w1", basicWorkflowJson "w1")])]

/-- A payload body that fails `SyncPayloadSchema` (workflow `w1` has no
`name` and no `state`). -/
def invalidBody : Json :=
  Json.mkObj [("workflows",
    Json.mkObj [("w1", Json.mkObj [("id", .str "w1")])])]

/-- A `w1` row owned by user `u1`, in no workspace. -/
def rowU : DbWorkflow := { id := "w1", userId := "u1", name := "n", state := stEmpty }

/-- A `w1` row owned by user `u1` inside workspace `W`. -/
def rowW : DbWorkflow :=
  { id := "w1", userId := "u1", workspaceId := some "W", name := "n", state := stEmpty }

/-- A `w1` row in workspace `W` owned by another user. -/
def rowOther : DbWorkflow :=
  { id := "w1", userId := "other", workspaceId := some "W", name := "n", state := stEmpty }

/-- Base test environment: workspace `W` exists, `u1` is its owner, and
the normalized-tables save fails (so the client state is the fallback). -/
def envA : Env :=
  { workflows := [rowU]
    workspaces := ["W"]
    membership := fun u w =>
      if u = "u1" ∧ w = "W" then .ok (some "owner") else .ok none
    normSave := fun _ _ => { success := false }
    now := 1000 }

/-- `envA` with the `w1` row living in workspace `W`. -/
def envB : Env := { envA with workflows := [rowW] }

/-- `envA` but `u1` is only a `viewer` of `W`, and `w1` belongs to
another user. -/
def envViewer : Env :=
  { envA with
    workflows := [rowOther]
    membership := fun u w =>
      if u = "u1" ∧ w = "W" then .ok (some "viewer") else .ok none }

/-- Environment with an empty database and a membership query that
always finds the role `admin`. -/
def envAdmin : Env :=
  { envA with workflows := [], membership := fun _ _ => .ok (some "admin") }

/-- Environment with no workspaces and a membership query that never
finds a row. -/
def envNone : Env :=
  { workflows := [], workspaces := [],
    membership := fun _ _ => .ok none,
    normSave := fun _ _ => { success := false }, now := 0 }

/-- A 1001-entry membership cache, entirely fresh at time 0, whose
soonest-expiring entry is the key `a:b`. -/
def bigCache : Cache :=
  ("a:b", { role := "member", expires := 1500 }) ::
    (List.range 1000).map
      (fun i => ("f" ++ toString i, { role := "member", expires := 2000 + (i : Int) }))

/-- Workflow state with the legacy `isPublished` flag set. -/
def stPub : WorkflowState := { blocks := [], edges := [], isPublished := some true }

/-- A `w1` row in workspace `W` whose metadata matches `pubWorkflowJson`
after the route's legacy-published migration: its `marketplaceData` is
already `{ id: 'w1', status: 'owner' }`. -/
def rowPub : DbWorkflow :=
  { id := "w1", userId := "u1", workspaceId := some "W", name := "n",
    description := some "d", color := some "c", state := stPub,
    marketplaceData := some ⟨"w1", "owner"⟩ }

/-- A client `w1` whose state has `isPublished: true` but no
`marketplaceData`, matching `rowPub` on every other compared field. -/
def pubWorkflowJson : Json :=
  Json.mkObj [("id", .str "w1"), ("name", .str "n"),
    ("description", .str "d"), ("color", .str "c"),
    ("workspaceId", .str "W"),
    ("state", Json.mkObj [("blocks", Json.mkObj []), ("edges", Json.mkArr []),
      ("isPublished", .bool true)])]

/-- The parse of `pubWorkflowJson`. -/
def pubWorkflow : ClientWorkflow :=
  { id := "w1", name := "n", description := some "d", color := some "c",
    state := stPub, workspaceId := some "W" }

/-- The payload carrying `pubWorkflowJson` into workspace `W`. -/
def pubBody : Json :=
  Json.mkObj [("workflows", Json.mkObj [("w1", pubWorkflowJson)]),
    ("workspaceId", .str "W")]

/-- Environment for the published-workflow scenario. -/
def envPub : Env := { envA with workflows := [rowPub] }

/-- A persisted blob for the client-store witnesses. -/
def blob0 : PersistedWorkflowState := { lastSaved := some 5 }

/-- Client environment whose storage holds a blob for `w1` only. -/
def cenv0 : ClientEnv :=
  { now := 777, storage := fun i => if i = "w1" then some blob0 else none }

/-- A registry whose active workflow is `w1`. -/
def reg0 : RegistryState := { activeWorkflowId := some "w1" }

/-- A workflow store in its initial shape. -/
def wf0 : WorkflowStoreState := { history := freshHistory 0 }

/-- Client store ensemble with workspace `A` active and no transition
in progress. -/
def stores0 : ClientStores :=
  { registry := { activeWorkspaceId := some "A" }
    workflowStore := wf0
    subblock := {}
    transitioning := false }

/-- A payload carrying the new workflow `w2` into the non-existent
workspace `X`. -/
def newWorkflowBodyX : Json :=
  Json.mkObj [("workflows", Json.mkObj [("w2", basicWorkflowJson "w2")]),
    ("workspaceId", .str "X")]

/-- A payload carrying the new workflow `w2` into workspace `W`. -/
def newWorkflowBodyW : Json :=
  Json.mkObj [("workflows", Json.mkObj [("w2", basicWorkflowJson "w2")]),
    ("workspaceId", .str "W")]

/-! ## Helper lemmas -/

theorem processEntries_append (env : Env) (uid : String)
    (payloadWs : Option String) (userRole : Option String)
    (rows : List DbWorkflow) (l1 l2 : List (String × ClientWorkflow)) :
    processEntries env uid payloadWs userRole rows (l1 ++ l2) =
      ((processEntries env uid payloadWs userRole rows l1).1 ++
        (processEntries env uid payloadWs userRole rows l2).1,
       (processEntries env uid payloadWs userRole rows l1).2 ++
        (processEntries env uid payloadWs userRole rows l2).2) := by
  induction l1 with
  | nil => simp [processEntries]
  | cons e rest ih => simp [processEntries, ih]

theorem computeUpdateData_deployedState {now : Int} {dbw : DbWorkflow}
    {cw : ClientWorkflow} {md : Option (Option MarketplaceData)}
    {ws : Option String} {sts : WorkflowState} {ud : UpdateData}
    (h : computeUpdateData now dbw cw md ws sts = some ud) :
    ud.deployedState = none := by
  simp only [computeUpdateData] at h
  split at h
  · simp only [Option.some.injEq] at h
    subst h
    rfl
  · cases h

theorem processEntry_ops_deployedState (env : Env) (uid : String)
    (payloadWs : Option String) (userRole : Option String)
    (rows : List DbWorkflow) (e : String × ClientWorkflow) :
    ∀ op ∈ (processEntry env uid payloadWs userRole rows e).2,
      opPreservesDeployedState op = true := by
  intro op hop
  simp only [processEntry] at hop
  split at hop
  · simp only [List.mem_singleton] at hop
    subst hop
    rfl
  · split at hop
    · split at hop
      · rename_i heq
        simp only [List.mem_singleton] at hop
        subst hop
        simp [opPreservesDeployedState, computeUpdateData_deployedState heq]
      · exact absurd hop (List.not_mem_nil op)
    · exact absurd hop (List.not_mem_nil op)

theorem processEntries_ops_deployedState (env : Env) (uid : String)
    (payloadWs : Option String) (userRole : Option String)
    (rows : List DbWorkflow) (l : List (String × ClientWorkflow)) :
    ∀ op ∈ (processEntries env uid payloadWs userRole rows l).2,
      opPreservesDeployedState op = true := by
  induction l with
  | nil => intro op hop; exact absurd hop (List.not_mem_nil op)
  | cons e rest ih =>
    intro op hop
    simp only [processEntries, List.mem_append] at hop
    rcases hop with hop | hop
    · exact processEntry_ops_deployedState env uid payloadWs userRole rows e op hop
    · exact ih op hop

/-! ## Claim theorems -/

/-- C1 (empty-payload data-loss guard): a POST from an authenticated
user whose parsed payload has an empty `workflows` record, while the
database holds at least one workflow row for the payload's workspace
(or, without a workspace id, owned by the user), is answered 409 with
the error `Sync rejected to prevent data loss`, and no insert into and
no update of the `workflow` table is performed. -/
theorem post_empty_payload_guard (env : Env) (cache : Cache) (uid : String)
    (body : Json) (payload : SyncPayload)
    (hparse : parseSyncPayload body = .ok payload)
    (hempty : payload.workflows = [])
    (hrows : dbRowsForSync env uid payload.workspaceId ≠ []) :
    POST env cache (some uid) body =
      ⟨{ status := 409, error := some "Sync rejected to prevent data loss",
         message := some
           "Client sent empty workflows, but user has existing workflows in database" },
        [], [], cache⟩ := by
  unfold POST
  rw [hparse]
  dsimp only
  rw [if_pos ⟨by simp [hempty], by simpa [List.isEmpty_iff] using hrows⟩]

/-- Witness for C1: user `u1` owns row `w1`; an empty-workflows sync is
rejected with 409 and produces no operations. -/
theorem post_empty_payload_guard_witness :
    POST envA [] (some "u1") emptyWorkflowsBody =
      ⟨{ status := 409, error := some "Sync rejected to prevent data loss",
         message := some
           "Client sent empty workflows, but user has existing workflows in database" },
        [], [], []⟩ :=
  post_empty_payload_guard envA [] "u1" emptyWorkflowsBody ⟨[], none⟩ rfl rfl
    (by decide)

/-- C7 (payload validation): a POST from an authenticated user whose
body fails `SyncPayloadSchema` is answered 400 with the error
`Invalid request data` and the issue details, and performs no database
writes (no workflow-table operation and no normalized-tables save). -/
theorem post_invalid_payload (env : Env) (cache : Cache) (uid : String)
    (body : Json) (e : String)
    (hparse : parseSyncPayload body = .error e) :
    POST env cache (some uid) body =
      ⟨{ status := 400, error := some "Invalid request data",
         details := some e }, [], [], cache⟩ := by
  unfold POST
  rw [hparse]

/-- Witness for C7: a workflow entry missing `name` and `state` is
rejected with 400 and no writes. -/
theorem post_invalid_payload_witness :
    POST envA [] (some "u1") invalidBody =
      ⟨{ status := 400, error := some "Invalid request data",
         details := some "name: required string" }, [], [], []⟩ :=
  post_invalid_payload envA [] "u1" invalidBody "name: required string" rfl

/-- C9 (deployedState frame condition): no operation the POST handler
ever issues writes the `deployedState` column — update data never
contains it, and inserts set it to `null` — for every environment,
session and body. -/
theorem post_deployedState_frame (env : Env) (cache : Cache)
    (session : Option String) (body : Json) :
    ((POST env cache session body).ops.all opPreservesDeployedState) = true := by
  unfold POST
  cases session with
  | none => rfl
  | some uid =>
    cases hparse : parseSyncPayload body with
    | error e => rfl
    | ok payload =>
      dsimp only
      split
      · rfl
      · split
        · rfl
        · exact List.all_eq_true.mpr
            (processEntries_ops_deployedState env uid payload.workspaceId _ _ _)

theorem POST_processing (env : Env) (cache : Cache) (uid : String)
    (body : Json) (payload : SyncPayload) (userRole : Option String)
    (cache1 : Cache)
    (hparse : parseSyncPayload body = .ok payload)
    (hnc : payload.workflows ≠ [] ∨ dbRowsForSync env uid payload.workspaceId = [])
    (hgate : workspaceGate env cache uid payload.workspaceId = .allow userRole cache1) :
    POST env cache (some uid) body =
      ⟨{ status := 200, success := true,
         operationCount := some (processEntries env uid payload.workspaceId
           userRole (dbRowsForSync env uid payload.workspaceId)
           payload.workflows).2.length,
         workflowCount := some payload.workflows.length },
        (processEntries env uid payload.workspaceId userRole
          (dbRowsForSync env uid payload.workspaceId) payload.workflows).1,
        (processEntries env uid payload.workspaceId userRole
          (dbRowsForSync env uid payload.workspaceId) payload.workflows).2,
        cache1⟩ := by
  have hnc' : ¬(payload.workflows.isEmpty = true ∧
      ¬(dbRowsForSync env uid payload.workspaceId).isEmpty = true) := by
    intro hand
    obtain ⟨h1, h2⟩ := hand
    rcases hnc with h | h
    · exact h (List.isEmpty_iff.mp h1)
    · exact h2 (List.isEmpty_iff.mpr h)
  unfold POST
  rw [hparse]
  dsimp only
  rw [if_neg hnc', hgate]

theorem computeUpdateData_state {now : Int} {dbw : DbWorkflow}
    {cw : ClientWorkflow} {md : Option (Option MarketplaceData)}
    {ws : Option String} {sts : WorkflowState} {ud : UpdateData}
    (h : computeUpdateData now dbw cw md ws sts = some ud) :
    ud.state = none ∨ ud.state = some sts := by
  simp only [computeUpdateData] at h
  split at h
  · simp only [Option.some.injEq] at h
    subst h
    dsimp only
    split
    · exact Or.inr rfl
    · exact Or.inl rfl
  · cases h

theorem processEntry_fst (env : Env) (uid : String)
    (payloadWs : Option String) (userRole : Option String)
    (rows : List DbWorkflow) (e : String × ClientWorkflow) :
    (processEntry env uid payloadWs userRole rows e).1 =
      ⟨e.1, normInputOf e.2⟩ := by
  simp only [processEntry]
  split
  · rfl
  · split
    · split
      · rfl
      · rfl
    · rfl

theorem processEntry_writes_state (env : Env) (uid : String)
    (payloadWs : Option String) (userRole : Option String)
    (rows : List DbWorkflow) (e : String × ClientWorkflow) :
    entryWritesState (processEntry env uid payloadWs userRole rows e).2
      (stateToSaveOf (env.normSave e.1 (normInputOf e.2)) e.2) := by
  intro op hop
  simp only [processEntry] at hop
  split at hop
  · simp only [List.mem_singleton] at hop
    subst hop
    constructor
    · intro v hv
      cases hv
      rfl
    · intro i ud s' hop' _
      cases hop'
  · split at hop
    · split at hop
      · rename_i heq
        simp only [List.mem_singleton] at hop
        subst hop
        constructor
        · intro v hv
          cases hv
        · intro i ud s' hop' hstate
          cases hop'
          rcases computeUpdateData_state heq with hn | hs
          · rw [hn] at hstate
            cases hstate
          · rw [hs] at hstate
            cases hstate
            rfl
      · exact absurd hop (List.not_mem_nil op)
    · exact absurd hop (List.not_mem_nil op)

/-- C3 (dual-write): in a POST sync that reaches processing, every
client workflow is passed to `saveWorkflowToNormalizedTables` with its
graph (blocks, edges, loops, parallels and the deployment fields), and
the value written to the legacy `state` blob column — by the insert of
a new workflow as well as by the update of an existing one — is the
`jsonBlob` returned by that save when it succeeds, and the
client-provided state otherwise. -/
theorem post_dual_write (env : Env) (cache : Cache) (uid : String)
    (body : Json) (payload : SyncPayload) (userRole : Option String)
    (cache1 : Cache) (pre post : List (String × ClientWorkflow))
    (id : String) (cw : ClientWorkflow)
    (hparse : parseSyncPayload body = .ok payload)
    (hnc : payload.workflows ≠ [] ∨ dbRowsForSync env uid payload.workspaceId = [])
    (hgate : workspaceGate env cache uid payload.workspaceId = .allow userRole cache1)
    (hsplit : payload.workflows = pre ++ (id, cw) :: post) :
    (⟨id, normInputOf cw⟩ : NormCall) ∈ (POST env cache (some uid) body).normCalls ∧
    (POST env cache (some uid) body).ops =
      (processEntries env uid payload.workspaceId userRole
        (dbRowsForSync env uid payload.workspaceId) pre).2 ++
      (processEntry env uid payload.workspaceId userRole
        (dbRowsForSync env uid payload.workspaceId) (id, cw)).2 ++
      (processEntries env uid payload.workspaceId userRole
        (dbRowsForSync env uid payload.workspaceId) post).2 ∧
    (∀ blob, (env.normSave id (normInputOf cw)).success = true →
      (env.normSave id (normInputOf cw)).jsonBlob = some blob →
      entryWritesState (processEntry env uid payload.workspaceId userRole
        (dbRowsForSync env uid payload.workspaceId) (id, cw)).2 blob) ∧
    ((env.normSave id (normInputOf cw)).success = false →
      entryWritesState (processEntry env uid payload.workspaceId userRole
        (dbRowsForSync env uid payload.workspaceId) (id, cw)).2 cw.state) := by
  rw [POST_processing env cache uid body payload userRole cache1 hparse hnc hgate]
  set rows := dbRowsForSync env uid payload.workspaceId with hrows
  have hdecomp := processEntries_append env uid payload.workspaceId userRole rows
    pre ((id, cw) :: post)
  have hwrites := processEntry_writes_state env uid payload.workspaceId userRole
    rows (id, cw)
  refine ⟨?_, ?_, ?_, ?_⟩
  · dsimp only
    rw [hsplit, hdecomp]
    dsimp only
    simp only [processEntries, List.mem_append, List.mem_cons]
    exact Or.inr (Or.inl (processEntry_fst env uid payload.workspaceId userRole
      rows (id, cw)).symm)
  · dsimp only
    rw [hsplit, hdecomp]
    dsimp only
    simp [processEntries]
  · intro blob hsucc hblob
    have : stateToSaveOf (env.normSave id (normInputOf cw)) cw = blob := by
      unfold stateToSaveOf
      rw [hsucc, hblob]
    rw [← this]
    exact hwrites
  · intro hfail
    have : stateToSaveOf (env.normSave id (normInputOf cw)) cw = cw.state := by
      unfold stateToSaveOf
      rw [hfail]
    rw [← this]
    exact hwrites

/-- Witness for C3: syncing the new workflow `w2` with a failing
normalized save records the normalized-tables call and writes the
client state to the blob column. -/
theorem post_dual_write_witness :
    (⟨"w2", normInputOf (basicWorkflow "w2")⟩ : NormCall) ∈
      (POST envA [] (some "u1") newWorkflowBody).normCalls ∧
    entryWritesState
      (processEntry envA "u1" none none [rowU] ("w2", basicWorkflow "w2")).2
      stEmpty := by
  have h := post_dual_write envA [] "u1" newWorkflowBody
    ⟨[("w2", basicWorkflow "w2")], none⟩ none [] [] [] "w2"
    (basicWorkflow "w2") rfl (Or.inl (by decide)) rfl rfl
  exact ⟨h.1, h.2.2.2 rfl⟩

theorem mdJson_inj {a b : Option MarketplaceData} (h : mdJson a = mdJson b) :
    a = b := by
  cases a with
  | none =>
    cases b with
    | none => rfl
    | some m => simp [mdJson, Json.mkObj] at h
  | some ma =>
    cases b with
    | none => simp [mdJson, Json.mkObj] at h
    | some mb =>
      simp only [mdJson, Json.mkObj, List.foldr, Json.objCons.injEq,
        Json.str.injEq] at h
      cases ma
      cases mb
      simp_all

theorem mdSerialized_ne_iff (d : Option MarketplaceData)
    (m : Option (Option MarketplaceData)) :
    some (mdJson d) ≠ m.map mdJson ↔ some d ≠ m := by
  constructor
  · intro h he
    exact h (by rw [← he]; rfl)
  · intro h he
    cases m with
    | none => cases he
    | some x =>
      simp only [Option.map_some', Option.some.injEq] at he
      exact h (by rw [mdJson_inj he])

theorem comparedFieldsDifferMigrated_iff_isSome (now : Int) (dbw : DbWorkflow)
    (cw : ClientWorkflow) (effWs : Option String) (chosen : WorkflowState) :
    comparedFieldsDifferMigrated dbw cw effWs chosen ↔
      (computeUpdateData now dbw cw (effMarketplaceData cw) effWs
        chosen).isSome = true := by
  unfold comparedFieldsDifferMigrated
  rw [mdSerialized_ne_iff dbw.marketplaceData (effMarketplaceData cw)]
  simp only [computeUpdateData]
  split
  · rename_i hC
    exact iff_of_true hC rfl
  · rename_i hC
    exact iff_of_false hC (by simp)

theorem processEntry_found_can (env : Env) (uid : String)
    (payloadWs : Option String) (userRole : Option String)
    (rows : List DbWorkflow) (e : String × ClientWorkflow) (dbw : DbWorkflow)
    (hfound : findDbWorkflow rows e.1 = some dbw)
    (hcan : canUpdateRow uid payloadWs userRole dbw = true) :
    (processEntry env uid payloadWs userRole rows e).2 =
      match computeUpdateData env.now dbw e.2 (effMarketplaceData e.2)
        (jsOrStr e.2.workspaceId payloadWs)
        (stateToSaveOf (env.normSave e.1 (normInputOf e.2)) e.2) with
      | some ud => [Op.update e.1 ud]
      | none => [] := by
  simp only [processEntry, hfound]
  rw [if_pos hcan]
  cases computeUpdateData env.now dbw e.2 (effMarketplaceData e.2)
    (jsOrStr e.2.workspaceId payloadWs)
    (stateToSaveOf (env.normSave e.1 (normInputOf e.2)) e.2) <;> rfl

theorem processEntry_found_notcan (env : Env) (uid : String)
    (payloadWs : Option String) (userRole : Option String)
    (rows : List DbWorkflow) (e : String × ClientWorkflow) (dbw : DbWorkflow)
    (hfound : findDbWorkflow rows e.1 = some dbw)
    (hcan : canUpdateRow uid payloadWs userRole dbw = false) :
    (processEntry env uid payloadWs userRole rows e).2 = [] := by
  simp only [processEntry, hfound]
  rw [if_neg (by simp [hcan])]

theorem processEntry_ops_shape (env : Env) (uid : String)
    (payloadWs : Option String) (userRole : Option String)
    (rows : List DbWorkflow) (e : String × ClientWorkflow) (op : Op)
    (hop : op ∈ (processEntry env uid payloadWs userRole rows e).2) :
    (∃ v, op = Op.insert v ∧ v.id = e.2.id) ∨ ∃ ud, op = Op.update e.1 ud := by
  simp only [processEntry] at hop
  split at hop
  · simp only [List.mem_singleton] at hop
    exact Or.inl ⟨_, hop, rfl⟩
  · split at hop
    · split at hop
      · simp only [List.mem_singleton] at hop
        exact Or.inr ⟨_, hop⟩
      · exact absurd hop (List.not_mem_nil op)
    · exact absurd hop (List.not_mem_nil op)

theorem processEntries_not_target (env : Env) (uid : String)
    (payloadWs : Option String) (userRole : Option String)
    (rows : List DbWorkflow) (l : List (String × ClientWorkflow)) (id : String)
    (hne : ∀ p ∈ l, p.1 ≠ id)
    (hids : ∀ p ∈ l, p.2.id = p.1) :
    ∀ op ∈ (processEntries env uid payloadWs userRole rows l).2,
      opTargetsId op id = false := by
  induction l with
  | nil => intro op hop; exact absurd hop (List.not_mem_nil op)
  | cons e rest ih =>
    intro op hop
    simp only [processEntries, List.mem_append] at hop
    rcases hop with hop | hop
    · rcases processEntry_ops_shape env uid payloadWs userRole rows e op hop with
        ⟨v, hv, hvid⟩ | ⟨ud, hud⟩
      · subst hv
        have : v.id ≠ id := by
          rw [hvid, hids e (List.mem_cons_self e rest)]
          exact hne e (List.mem_cons_self e rest)
        simp [opTargetsId, this]
      · subst hud
        simp [opTargetsId, hne e (List.mem_cons_self e rest)]
    · exact ih (fun p hp => hne p (List.mem_cons_of_mem e hp))
        (fun p hp => hids p (List.mem_cons_of_mem e hp)) op hop

/-- C5 (diff-before-write), amended: for an existing database workflow
appearing in the payload that the user may update, an update operation
is issued if and only if at least one compared field differs — name,
description, color, effective workspaceId, folderId (absent as null),
marketplaceData (by JSON serialization, after the route's
legacy-published migration of `isPublished` workflows), state (by
serialization against the state chosen for saving), isDeployed (client
value defaulting to false), or deployedAt (as millisecond timestamps,
absent as null) — and when no compared field differs the row, its
`lastSynced` and `updatedAt` included, is touched by no operation. -/
theorem post_diff_before_write (env : Env) (cache : Cache) (uid : String)
    (body : Json) (payload : SyncPayload) (userRole : Option String)
    (cache1 : Cache) (pre post : List (String × ClientWorkflow))
    (id : String) (cw : ClientWorkflow) (dbw : DbWorkflow)
    (hparse : parseSyncPayload body = .ok payload)
    (hnc : payload.workflows ≠ [] ∨ dbRowsForSync env uid payload.workspaceId = [])
    (hgate : workspaceGate env cache uid payload.workspaceId = .allow userRole cache1)
    (hsplit : payload.workflows = pre ++ (id, cw) :: post)
    (hkeys : (payload.workflows.map Prod.fst).Nodup)
    (hids : ∀ p ∈ payload.workflows, p.2.id = p.1)
    (hfound : findDbWorkflow (dbRowsForSync env uid payload.workspaceId) id = some dbw)
    (hcan : canUpdateRow uid payload.workspaceId userRole dbw = true) :
    ((∃ ud, Op.update id ud ∈ (POST env cache (some uid) body).ops) ↔
      comparedFieldsDifferMigrated dbw cw
        (jsOrStr cw.workspaceId payload.workspaceId)
        (stateToSaveOf (env.normSave id (normInputOf cw)) cw)) ∧
    (¬ comparedFieldsDifferMigrated dbw cw
        (jsOrStr cw.workspaceId payload.workspaceId)
        (stateToSaveOf (env.normSave id (normInputOf cw)) cw) →
      ∀ op ∈ (POST env cache (some uid) body).ops,
        opTargetsId op id = false) := by
  rw [POST_processing env cache uid body payload userRole cache1 hparse hnc hgate]
  dsimp only
  set rows := dbRowsForSync env uid payload.workspaceId with hrowsdef
  have hdecomp := processEntries_append env uid payload.workspaceId userRole rows
    pre ((id, cw) :: post)
  have hkeys' : ((pre.map Prod.fst) ++ id :: (post.map Prod.fst)).Nodup := by
    have := hkeys
    rw [hsplit] at this
    simpa using this
  obtain ⟨hnodup_pre, hnodup_cons, hdisj⟩ := List.nodup_append.mp hkeys'
  have hid_post : id ∉ post.map Prod.fst := (List.nodup_cons.mp hnodup_cons).1
  have hne_pre : ∀ p ∈ pre, p.1 ≠ id := by
    intro p hp hpe
    exact hdisj (hpe ▸ List.mem_map_of_mem Prod.fst hp)
      (List.mem_cons_self id (post.map Prod.fst))
  have hne_post : ∀ p ∈ post, p.1 ≠ id := by
    intro p hp hpe
    exact hid_post (hpe ▸ List.mem_map_of_mem Prod.fst hp)
  have hids_pre : ∀ p ∈ pre, p.2.id = p.1 := by
    intro p hp
    exact hids p (by rw [hsplit]; exact List.mem_append_left _ hp)
  have hids_post : ∀ p ∈ post, p.2.id = p.1 := by
    intro p hp
    refine hids p ?_
    rw [hsplit]
    exact List.mem_append_right _ (List.mem_cons_of_mem _ hp)
  have hE := processEntry_found_can env uid payload.workspaceId userRole rows
    (id, cw) dbw hfound hcan
  have hops : (processEntries env uid payload.workspaceId userRole rows
      payload.workflows).2 =
      (processEntries env uid payload.workspaceId userRole rows pre).2 ++
      ((processEntry env uid payload.workspaceId userRole rows (id, cw)).2 ++
        (processEntries env uid payload.workspaceId userRole rows post).2) := by
    rw [hsplit, hdecomp]
    simp [processEntries]
  constructor
  · constructor
    · rintro ⟨ud, hud⟩
      rw [hops] at hud
      rcases List.mem_append.mp hud with hud | hud
      · have := processEntries_not_target env uid payload.workspaceId userRole
          rows pre id hne_pre hids_pre _ hud
        simp [opTargetsId] at this
      · rcases List.mem_append.mp hud with hud | hud
        · rw [hE] at hud
          rw [comparedFieldsDifferMigrated_iff_isSome env.now]
          cases hcud : computeUpdateData env.now dbw cw (effMarketplaceData cw)
            (jsOrStr cw.workspaceId payload.workspaceId)
            (stateToSaveOf (env.normSave id (normInputOf cw)) cw) with
          | some ud' => rfl
          | none =>
            rw [hcud] at hud
            exact absurd hud (List.not_mem_nil _)
        · have := processEntries_not_target env uid payload.workspaceId userRole
            rows post id hne_post hids_post _ hud
          simp [opTargetsId] at this
    · intro hdiff
      have hsome := (comparedFieldsDifferMigrated_iff_isSome env.now dbw cw
        (jsOrStr cw.workspaceId payload.workspaceId)
        (stateToSaveOf (env.normSave id (normInputOf cw)) cw)).mp hdiff
      obtain ⟨ud, hud⟩ := Option.isSome_iff_exists.mp hsome
      refine ⟨ud, ?_⟩
      rw [hops]
      refine List.mem_append_right _ (List.mem_append_left _ ?_)
      rw [hE, hud]
      exact List.mem_singleton.mpr rfl
  · intro hdiff op hop
    have hnone : computeUpdateData env.now dbw cw (effMarketplaceData cw)
        (jsOrStr cw.workspaceId payload.workspaceId)
        (stateToSaveOf (env.normSave id (normInputOf cw)) cw) = none := by
      cases hcud : computeUpdateData env.now dbw cw (effMarketplaceData cw)
        (jsOrStr cw.workspaceId payload.workspaceId)
        (stateToSaveOf (env.normSave id (normInputOf cw)) cw) with
      | none => rfl
      | some ud =>
        exact absurd ((comparedFieldsDifferMigrated_iff_isSome env.now dbw cw
          (jsOrStr cw.workspaceId payload.workspaceId)
          (stateToSaveOf (env.normSave id (normInputOf cw)) cw)).mpr
          (by rw [hcud]; rfl)) hdiff
    rw [hops] at hop
    rcases List.mem_append.mp hop with hop | hop
    · exact processEntries_not_target env uid payload.workspaceId userRole
        rows pre id hne_pre hids_pre op hop
    · rcases List.mem_append.mp hop with hop | hop
      · rw [hE, hnone] at hop
        exact absurd hop (List.not_mem_nil op)
      · exact processEntries_not_target env uid payload.workspaceId userRole
          rows post id hne_post hids_post op hop

/-- Witness for the amended C5: `w1` exists in the database with a
`NULL` description while the client omits `description`; the strict
comparison differs (JS `null !== undefined`), so an update operation is
issued. -/
theorem post_diff_before_write_witness :
    ∃ ud, Op.update "w1" ud ∈ (POST envA [] (some "u1") w1Body).ops := by
  have h := post_diff_before_write envA [] "u1" w1Body
    ⟨[("w1", basicWorkflow "w1")], none⟩ none [] [] [] "w1"
    (basicWorkflow "w1") rowU rfl (Or.inl (by decide)) rfl rfl
    (by decide) (by decide) rfl rfl
  exact h.1.mpr (by decide)

/-- C10 (silent permission skip): when the payload contains an existing
workflow the user may not update (not the row's owner and without an
owner/admin/member workspace role), that row is touched by no
operation, the remaining workflows are still processed, and the
response is still HTTP 200 with `success: true` and no error — the
denial is not reported. -/
theorem post_silent_permission_skip (env : Env) (cache : Cache) (uid : String)
    (body : Json) (payload : SyncPayload) (userRole : Option String)
    (cache1 : Cache) (pre post : List (String × ClientWorkflow))
    (id : String) (cw : ClientWorkflow) (dbw : DbWorkflow)
    (hparse : parseSyncPayload body = .ok payload)
    (hnc : payload.workflows ≠ [] ∨ dbRowsForSync env uid payload.workspaceId = [])
    (hgate : workspaceGate env cache uid payload.workspaceId = .allow userRole cache1)
    (hsplit : payload.workflows = pre ++ (id, cw) :: post)
    (hkeys : (payload.workflows.map Prod.fst).Nodup)
    (hids : ∀ p ∈ payload.workflows, p.2.id = p.1)
    (hfound : findDbWorkflow (dbRowsForSync env uid payload.workspaceId) id = some dbw)
    (hcannot : canUpdateRow uid payload.workspaceId userRole dbw = false) :
    (POST env cache (some uid) body).response.status = 200 ∧
    (POST env cache (some uid) body).response.success = true ∧
    (POST env cache (some uid) body).response.error = none ∧
    (POST env cache (some uid) body).ops =
      (processEntries env uid payload.workspaceId userRole
        (dbRowsForSync env uid payload.workspaceId) pre).2 ++
      (processEntries env uid payload.workspaceId userRole
        (dbRowsForSync env uid payload.workspaceId) post).2 ∧
    (∀ op ∈ (POST env cache (some uid) body).ops,
      opTargetsId op id = false) := by
  rw [POST_processing env cache uid body payload userRole cache1 hparse hnc hgate]
  dsimp only
  set rows := dbRowsForSync env uid payload.workspaceId with hrowsdef
  have hkeys' : ((pre.map Prod.fst) ++ id :: (post.map Prod.fst)).Nodup := by
    have := hkeys
    rw [hsplit] at this
    simpa using this
  obtain ⟨hnodup_pre, hnodup_cons, hdisj⟩ := List.nodup_append.mp hkeys'
  have hid_post : id ∉ post.map Prod.fst := (List.nodup_cons.mp hnodup_cons).1
  have hne_pre : ∀ p ∈ pre, p.1 ≠ id := by
    intro p hp hpe
    exact hdisj (hpe ▸ List.mem_map_of_mem Prod.fst hp)
      (List.mem_cons_self id (post.map Prod.fst))
  have hne_post : ∀ p ∈ post, p.1 ≠ id := by
    intro p hp hpe
    exact hid_post (hpe ▸ List.mem_map_of_mem Prod.fst hp)
  have hids_pre : ∀ p ∈ pre, p.2.id = p.1 := by
    intro p hp
    exact hids p (by rw [hsplit]; exact List.mem_append_left _ hp)
  have hids_post : ∀ p ∈ post, p.2.id = p.1 := by
    intro p hp
    refine hids p ?_
    rw [hsplit]
    exact List.mem_append_right _ (List.mem_cons_of_mem _ hp)
  have hE := processEntry_found_notcan env uid payload.workspaceId userRole rows
    (id, cw) dbw hfound hcannot
  have hops : (processEntries env uid payload.workspaceId userRole rows
      payload.workflows).2 =
      (processEntries env uid payload.workspaceId userRole rows pre).2 ++
      (processEntries env uid payload.workspaceId userRole rows post).2 := by
    rw [hsplit, processEntries_append]
    simp [processEntries, hE]
  refine ⟨rfl, rfl, rfl, hops, ?_⟩
  intro op hop
  rw [hops] at hop
  rcases List.mem_append.mp hop with hop | hop
  · exact processEntries_not_target env uid payload.workspaceId userRole
      rows pre id hne_pre hids_pre op hop
  · exact processEntries_not_target env uid payload.workspaceId userRole
      rows post id hne_post hids_post op hop

/-- Witness for C10: `u1` is only a viewer of workspace `W`, and `w1`
belongs to another user; the sync succeeds with 200/`success: true`
while issuing no operation for `w1`. -/
theorem post_silent_permission_skip_witness :
    (POST envViewer [] (some "u1") pubBody).response.status = 200 ∧
    (POST envViewer [] (some "u1") pubBody).response.success = true ∧
    (POST envViewer [] (some "u1") pubBody).response.error = none ∧
    (POST envViewer [] (some "u1") pubBody).ops = [] := by
  have h := post_silent_permission_skip envViewer [] "u1" pubBody
    ⟨[("w1", pubWorkflow)], some "W"⟩ (some "viewer")
    [("u1:W", ⟨"viewer", 61000⟩)] [] [] "w1" pubWorkflow rowOther
    rfl (Or.inl (by decide)) rfl rfl (by decide) (by decide) (by decide)
    (by decide)
  refine ⟨h.1, h.2.1, h.2.2.1, ?_⟩
  have h4 := h.2.2.2.1
  simpa [processEntries] using h4

/-- Counterexample to C5 as stated: database row `w1` carries the
marketplace data `{ id: 'w1', status: 'owner' }` while the client
payload's `marketplaceData` is absent but its state has
`isPublished: true`.  Every precondition of the claim holds and, read
literally, the claim's comparison list finds a difference (the client
`marketplaceData` as given serializes differently from the row's), yet
the route — which compares only after its legacy-published migration —
issues no update operation at all. -/
theorem post_diff_before_write_counterexample :
    claimComparedFieldsDiffer rowPub pubWorkflow
      (jsOrStr pubWorkflow.workspaceId (some "W"))
      (stateToSaveOf (envPub.normSave "w1" (normInputOf pubWorkflow)) pubWorkflow) ∧
    parseSyncPayload pubBody = .ok ⟨[("w1", pubWorkflow)], some "W"⟩ ∧
    findDbWorkflow (dbRowsForSync envPub "u1" (some "W")) "w1" = some rowPub ∧
    canUpdateRow "u1" (some "W") (some "owner") rowPub = true ∧
    (POST envPub [] (some "u1") pubBody).response.status = 200 ∧
    (POST envPub [] (some "u1") pubBody).ops = [] :=
  ⟨by decide, rfl, rfl, rfl, rfl, rfl⟩

theorem workspaceGate_notfound (env : Env) (cache : Cache) (uid wsid : String)
    (h1 : wsid ≠ "")
    (h2 : env.workspaces.any (fun w => w = wsid) = false) :
    workspaceGate env cache uid (some wsid) =
      .reject { status := 404, error := some "Workspace not found",
                code := some "WORKSPACE_NOT_FOUND" } cache := by
  unfold workspaceGate
  dsimp only
  rw [if_neg h1, if_neg (by simp [h2])]

theorem workspaceGate_denied (env : Env) (cache : Cache) (uid wsid : String)
    (h1 : wsid ≠ "")
    (h2 : env.workspaces.any (fun w => w = wsid) = true)
    (h3 : (verifyWorkspaceMembership env cache uid wsid).role = none) :
    workspaceGate env cache uid (some wsid) =
      .reject { status := 403, error := some "Access denied to this workspace",
                code := some "WORKSPACE_ACCESS_DENIED" }
        (verifyWorkspaceMembership env cache uid wsid).cache := by
  unfold workspaceGate
  dsimp only
  rw [if_neg h1, if_pos (by simp [h2])]
  rw [h3]

/-- C2 (workspace authorization), amended: for GET requests, and for
POST requests not intercepted by the empty-payload data-loss guard
(which runs first and answers 409 when the workflows record is empty
while matching rows exist), a supplied workspace id is validated: 404
`WORKSPACE_NOT_FOUND` when no workspace row exists, and 403
`WORKSPACE_ACCESS_DENIED` when membership verification returns null —
in both cases with no workflow reads-for-response (GET returns no
data) and no workflow writes (no operations). -/
theorem workspace_auth (env : Env) (cache : Cache) (uid wsid : String)
    (body : Json) (payload : SyncPayload) :
    (wsid ≠ "" → env.workspaces.any (fun w => w = wsid) = false →
      GET env cache (some uid) (some wsid) =
        ⟨{ status := 404, error := some "Workspace not found",
           code := some "WORKSPACE_NOT_FOUND" }, [], cache⟩) ∧
    (wsid ≠ "" → env.workspaces.any (fun w => w = wsid) = true →
      (verifyWorkspaceMembership env cache uid wsid).role = none →
      GET env cache (some uid) (some wsid) =
        ⟨{ status := 403, error := some "Access denied to this workspace",
           code := some "WORKSPACE_ACCESS_DENIED" }, [],
          (verifyWorkspaceMembership env cache uid wsid).cache⟩) ∧
    (parseSyncPayload body = .ok payload → payload.workspaceId = some wsid →
      wsid ≠ "" →
      (payload.workflows ≠ [] ∨ dbRowsForSync env uid (some wsid) = []) →
      env.workspaces.any (fun w => w = wsid) = false →
      POST env cache (some uid) body =
        ⟨{ status := 404, error := some "Workspace not found",
           code := some "WORKSPACE_NOT_FOUND" }, [], [], cache⟩) ∧
    (parseSyncPayload body = .ok payload → payload.workspaceId = some wsid →
      wsid ≠ "" →
      (payload.workflows ≠ [] ∨ dbRowsForSync env uid (some wsid) = []) →
      env.workspaces.any (fun w => w = wsid) = true →
      (verifyWorkspaceMembership env cache uid wsid).role = none →
      POST env cache (some uid) body =
        ⟨{ status := 403, error := some "Access denied to this workspace",
           code := some "WORKSPACE_ACCESS_DENIED" }, [], [],
          (verifyWorkspaceMembership env cache uid wsid).cache⟩) := by
  refine ⟨?_, ?_, ?_, ?_⟩
  · intro h1 h2
    unfold GET
    dsimp only
    rw [workspaceGate_notfound env cache uid wsid h1 h2]
  · intro h1 h2 h3
    unfold GET
    dsimp only
    rw [workspaceGate_denied env cache uid wsid h1 h2 h3]
  · intro hparse hws h1 hnc h2
    have hnc' : ¬(payload.workflows.isEmpty = true ∧
        ¬(dbRowsForSync env uid payload.workspaceId).isEmpty = true) := by
      intro hand
      obtain ⟨ha, hb⟩ := hand
      rcases hnc with h | h
      · exact h (List.isEmpty_iff.mp ha)
      · rw [hws] at hb
        exact hb (List.isEmpty_iff.mpr h)
    unfold POST
    rw [hparse]
    dsimp only
    rw [if_neg hnc', hws,
      workspaceGate_notfound env cache uid wsid h1 h2]
  · intro hparse hws h1 hnc h2 h3
    have hnc' : ¬(payload.workflows.isEmpty = true ∧
        ¬(dbRowsForSync env uid payload.workspaceId).isEmpty = true) := by
      intro hand
      obtain ⟨ha, hb⟩ := hand
      rcases hnc with h | h
      · exact h (List.isEmpty_iff.mp ha)
      · rw [hws] at hb
        exact hb (List.isEmpty_iff.mpr h)
    unfold POST
    rw [hparse]
    dsimp only
    rw [if_neg hnc', hws,
      workspaceGate_denied env cache uid wsid h1 h2 h3]

/-- Counterexample to C2 as stated: a POST with an empty workflows
record, sent by a non-member to an existing workspace `W` that already
holds a workflow row, is answered 409 by the data-loss guard — not the
403 the claim requires whenever membership verification returns
null. -/
theorem workspace_auth_counterexample :
    envB.workspaces.contains "W" = true ∧
    (verifyWorkspaceMembership envB [] "intruder" "W").role = none ∧
    (POST envB [] (some "intruder") emptyWorkflowsBodyW).response.status = 409 ∧
    (POST envB [] (some "intruder") emptyWorkflowsBodyW).response.status ≠ 403 :=
  ⟨rfl, rfl, rfl, by decide⟩

/-- Witness for the amended C2, exercising all four branches at
concrete inputs: GET/POST against the missing workspace `X` answer 404
and against `W` without membership answer 403, with no data and no
operations. -/
theorem workspace_auth_witness :
    GET envB [] (some "u1") (some "X") =
      ⟨{ status := 404, error := some "Workspace not found",
         code := some "WORKSPACE_NOT_FOUND" }, [], []⟩ ∧
    GET envB [] (some "intruder") (some "W") =
      ⟨{ status := 403, error := some "Access denied to this workspace",
         code := some "WORKSPACE_ACCESS_DENIED" }, [], []⟩ ∧
    POST envB [] (some "u1") newWorkflowBodyX =
      ⟨{ status := 404, error := some "Workspace not found",
         code := some "WORKSPACE_NOT_FOUND" }, [], [], []⟩ ∧
    POST envB [] (some "intruder") newWorkflowBodyW =
      ⟨{ status := 403, error := some "Access denied to this workspace",
         code := some "WORKSPACE_ACCESS_DENIED" }, [], [], []⟩ := by
  refine ⟨?_, ?_, ?_, ?_⟩
  · exact (workspace_auth envB [] "u1" "X" Json.null ⟨[], none⟩).1
      (by decide) rfl
  · exact (workspace_auth envB [] "intruder" "W" Json.null ⟨[], none⟩).2.1
      (by decide) rfl rfl
  · exact (workspace_auth envB [] "u1" "X" newWorkflowBodyX
      ⟨[("w2", basicWorkflow "w2")], some "X"⟩).2.2.1
      rfl rfl (by decide) (Or.inl (by decide)) rfl
  · exact (workspace_auth envB [] "intruder" "W" newWorkflowBodyW
      ⟨[("w2", basicWorkflow "w2")], some "W"⟩).2.2.2
      rfl rfl (by decide) (Or.inl (by decide)) rfl rfl

theorem queryMembership_spec (env : Env) (cache : Cache)
    (key uid wsid : String) :
    (queryMembership env cache key uid wsid).queried = true ∧
    (∀ r, env.membership uid wsid = .ok (some r) →
      (queryMembership env cache key uid wsid).role = some r ∧
      (queryMembership env cache key uid wsid).cache =
        cacheSet cache key ⟨r, env.now + CACHE_TTL⟩) ∧
    (env.membership uid wsid = .ok none →
      (queryMembership env cache key uid wsid).role = none ∧
      (queryMembership env cache key uid wsid).cache = cache) ∧
    (∀ er, env.membership uid wsid = .error er →
      (queryMembership env cache key uid wsid).role = none ∧
      (queryMembership env cache key uid wsid).cache = cache) := by
  unfold queryMembership
  cases hm : env.membership uid wsid with
  | error e =>
    refine ⟨rfl, ?_, ?_, ?_⟩
    · intro r hr
      exact Except.noConfusion hr
    · intro h
      exact Except.noConfusion h
    · intro er _
      exact ⟨rfl, rfl⟩
  | ok o =>
    cases o with
    | none =>
      refine ⟨rfl, ?_, ?_, ?_⟩
      · intro r hr
        injection hr with h
        exact Option.noConfusion h
      · intro _
        exact ⟨rfl, rfl⟩
      · intro er her
        exact Except.noConfusion her
    | some role =>
      refine ⟨rfl, ?_, ?_, ?_⟩
      · intro r hr
        injection hr with h
        injection h with h2
        subst h2
        exact ⟨rfl, rfl⟩
      · intro h
        injection h with h2
        exact Option.noConfusion h2
      · intro er her
        exact Except.noConfusion her

/-- C6 (TTL membership cache), amended: `verifyWorkspaceMembership`
returns without querying the database if and only if, after the
opportunistic cleanup (run when the cache holds more than 500 entries;
it drops expired entries and, should more than 1000 remain, also
evicts the soonest-expiring surplus even when fresh), the cache holds
an entry for `userId:workspaceId` whose expiry is strictly in the
future — in which case the cached role is returned; otherwise the
database is queried, a found membership is cached with expiry 60000 ms
from now and its role returned, and no membership or a query error
yields null without adding to the cache. -/
theorem verify_ttl_cache (env : Env) (cache0 : Cache) (uid wsid : String) :
    ((verifyWorkspaceMembership env cache0 uid wsid).queried = false ↔
      ∃ e, cacheGet (cacheAfterCleanup env.now cache0) (uid ++ ":" ++ wsid) =
          some e ∧ e.expires > env.now) ∧
    (∀ e, cacheGet (cacheAfterCleanup env.now cache0) (uid ++ ":" ++ wsid) =
        some e → e.expires > env.now →
      (verifyWorkspaceMembership env cache0 uid wsid).role = some e.role ∧
      (verifyWorkspaceMembership env cache0 uid wsid).cache =
        cacheAfterCleanup env.now cache0) ∧
    ((verifyWorkspaceMembership env cache0 uid wsid).queried = true →
      (∀ r, env.membership uid wsid = .ok (some r) →
        (verifyWorkspaceMembership env cache0 uid wsid).role = some r ∧
        (verifyWorkspaceMembership env cache0 uid wsid).cache =
          cacheSet (cacheAfterCleanup env.now cache0) (uid ++ ":" ++ wsid)
            ⟨r, env.now + CACHE_TTL⟩) ∧
      (env.membership uid wsid = .ok none →
        (verifyWorkspaceMembership env cache0 uid wsid).role = none ∧
        (verifyWorkspaceMembership env cache0 uid wsid).cache =
          cacheAfterCleanup env.now cache0) ∧
      (∀ er, env.membership uid wsid = .error er →
        (verifyWorkspaceMembership env cache0 uid wsid).role = none ∧
        (verifyWorkspaceMembership env cache0 uid wsid).cache =
          cacheAfterCleanup env.now cache0)) := by
  unfold verifyWorkspaceMembership
  dsimp only
  cases hget : cacheGet (cacheAfterCleanup env.now cache0)
      (uid ++ ":" ++ wsid) with
  | some entry =>
    dsimp only
    by_cases hexp : entry.expires > env.now
    · rw [if_pos hexp]
      refine ⟨iff_of_true rfl ⟨entry, rfl, hexp⟩, ?_, ?_⟩
      · intro e he _
        injection he with he2
        subst he2
        exact ⟨rfl, rfl⟩
      · intro hq
        exact absurd hq (by simp)
    · rw [if_neg hexp]
      have hs := queryMembership_spec env (cacheAfterCleanup env.now cache0)
        (uid ++ ":" ++ wsid) uid wsid
      refine ⟨?_, ?_, fun _ => ⟨hs.2.1, hs.2.2.1, hs.2.2.2⟩⟩
      · refine iff_of_false (by simp [hs.1]) ?_
        rintro ⟨e, he, hexp2⟩
        injection he with he2
        subst he2
        exact hexp hexp2
      · intro e he hexp2
        injection he with he2
        subst he2
        exact absurd hexp2 hexp
  | none =>
    dsimp only
    have hs := queryMembership_spec env (cacheAfterCleanup env.now cache0)
      (uid ++ ":" ++ wsid) uid wsid
    refine ⟨?_, ?_, fun _ => ⟨hs.2.1, hs.2.2.1, hs.2.2.2⟩⟩
    · refine iff_of_false (by simp [hs.1]) ?_
      rintro ⟨e, he, _⟩
      exact Option.noConfusion he
    · intro e he _
      exact Option.noConfusion he

/-- Counterexample to C6 as stated: a cache of 1001 entries, all
fresh, whose soonest-expiring entry is the key `a:b`.  The cache holds
a fresh entry for the key, yet the call queries the database (and
returns null rather than the cached role), because the opportunistic
cleanup evicted the entry over the 1000-entry size limit before the
lookup. -/
theorem verify_ttl_cache_counterexample :
    (∃ e, cacheGet bigCache "a:b" = some e ∧ e.expires > envNone.now) ∧
    (verifyWorkspaceMembership envNone bigCache "a" "b").queried = true ∧
    (verifyWorkspaceMembership envNone bigCache "a" "b").role = none := by
  set_option maxRecDepth 100000 in
  refine ⟨⟨⟨"member", 1500⟩, rfl, by decide⟩, by decide, by decide⟩

/-- Witness for the amended C6 at a concrete input: an empty cache
forces a query; the found role `admin` is returned and cached with
expiry one minute from now. -/
theorem verify_ttl_cache_witness :
    (verifyWorkspaceMembership envAdmin [] "u" "W").queried = true ∧
    (verifyWorkspaceMembership envAdmin [] "u" "W").role = some "admin" ∧
    (verifyWorkspaceMembership envAdmin [] "u" "W").cache =
      [("u:W", ⟨"admin", 61000⟩)] := by
  have h := verify_ttl_cache envAdmin [] "u" "W"
  have hq : (verifyWorkspaceMembership envAdmin [] "u" "W").queried = true := by
    rcases hqv : (verifyWorkspaceMembership envAdmin [] "u" "W").queried with _ | _
    · exfalso
      obtain ⟨e, he, _⟩ := h.1.mp hqv
      exact Option.noConfusion (by rw [← he]; rfl : (none : Option CacheEntry) = some e)
    · rfl
  obtain ⟨hrole, hcache⟩ := (h.2.2 hq).1 "admin" rfl
  exact ⟨hq, hrole, by rw [hcache]; rfl⟩

theorem statusGet_statusSet_self (m : List (String × DeploymentStatus))
    (k : String) (v : DeploymentStatus) :
    statusGet (statusSet m k v) k = some v := by
  induction m with
  | nil => simp [statusGet, statusSet, List.find?_cons]
  | cons e rest ih =>
    unfold statusSet
    by_cases h : e.1 = k
    · rw [if_pos h]
      simp [statusGet, List.find?_cons]
    · rw [if_neg h]
      unfold statusGet at ih ⊢
      simpa [List.find?_cons, h] using ih

theorem statusGet_statusSet_ne (m : List (String × DeploymentStatus))
    (k k' : String) (v : DeploymentStatus) (h : k' ≠ k) :
    statusGet (statusSet m k v) k' = statusGet m k' := by
  induction m with
  | nil => simp [statusGet, statusSet, List.find?_cons, Ne.symm h]
  | cons e rest ih =>
    unfold statusSet
    by_cases he : e.1 = k
    · rw [if_pos he]
      unfold statusGet
      simp [List.find?_cons, Ne.symm h, he ▸ Ne.symm h]
    · rw [if_neg he]
      unfold statusGet at ih ⊢
      by_cases he' : e.1 = k'
      · simp [List.find?_cons, he']
      · simpa [List.find?_cons, he'] using ih

/-- C4 (deployment-status reconciliation): `setDeploymentStatus` with a
resolvable workflow id and an existing persisted blob (1) replaces the
registry's `deploymentStatuses` entry for the workflow with the given
`isDeployed`, `deployedAt` (defaulting to now when marked deployed
without a timestamp) and `apiKey`, leaving other entries and the rest
of the registry unchanged; (2) updates the workflow store's legacy
fields and status entry only when the workflow is the active one,
leaving the store untouched otherwise; and (3) rewrites the persisted
blob with the new status entry, its legacy `isDeployed`/`deployedAt`
changed only for the active workflow. -/
theorem setDeploymentStatus_reconciles (env : ClientEnv)
    (reg : RegistryState) (wf : WorkflowStoreState) (wid0 : Option String)
    (isDep : Bool) (depAt : Option Int) (apiKey : Option String)
    (wid : String) (ws : PersistedWorkflowState)
    (hresolve : (if truthyStr wid0 then wid0 else reg.activeWorkflowId) = some wid)
    (hwid : wid ≠ "")
    (hblob : env.storage wid = some ws) :
    statusGet (setDeploymentStatus env reg wf wid0 isDep depAt
        apiKey).registry.deploymentStatuses wid =
      some (newStatusEntry isDep depAt apiKey env.now
        (statusGet reg.deploymentStatuses wid)) ∧
    (∀ k, k ≠ wid →
      statusGet (setDeploymentStatus env reg wf wid0 isDep depAt
          apiKey).registry.deploymentStatuses k =
        statusGet reg.deploymentStatuses k) ∧
    (setDeploymentStatus env reg wf wid0 isDep depAt
        apiKey).registry.activeWorkflowId = reg.activeWorkflowId ∧
    (setDeploymentStatus env reg wf wid0 isDep depAt
        apiKey).registry.workflows = reg.workflows ∧
    (reg.activeWorkflowId = some wid →
      (setDeploymentStatus env reg wf wid0 isDep depAt
          apiKey).workflowStore.isDeployed = isDep ∧
      (setDeploymentStatus env reg wf wid0 isDep depAt
          apiKey).workflowStore.deployedAt = effDeployedAt depAt isDep env.now ∧
      statusGet (setDeploymentStatus env reg wf wid0 isDep depAt
          apiKey).workflowStore.deploymentStatuses wid =
        some (newStatusEntry isDep depAt apiKey env.now
          (statusGet wf.deploymentStatuses wid))) ∧
    (reg.activeWorkflowId ≠ some wid →
      (setDeploymentStatus env reg wf wid0 isDep depAt
        apiKey).workflowStore = wf) ∧
    (setDeploymentStatus env reg wf wid0 isDep depAt apiKey).saves =
      [(wid,
        { ws with
          isDeployed :=
            if reg.activeWorkflowId = some wid then some isDep
            else ws.isDeployed
          deployedAt :=
            if reg.activeWorkflowId = some wid then
              effDeployedAt depAt isDep env.now
            else ws.deployedAt
          deploymentStatuses :=
            some (statusSet (ws.deploymentStatuses.getD []) wid
              (newStatusEntry isDep depAt apiKey env.now
                (statusGet (ws.deploymentStatuses.getD []) wid))) })] := by
  unfold setDeploymentStatus
  dsimp only
  rw [hresolve]
  dsimp only
  rw [if_neg hwid, hblob]
  dsimp only
  refine ⟨statusGet_statusSet_self _ _ _,
    fun k hk => statusGet_statusSet_ne _ _ _ _ hk, rfl, rfl, ?_, ?_, rfl⟩
  · intro hact
    rw [if_pos hact]
    exact ⟨rfl, rfl, statusGet_statusSet_self _ _ _⟩
  · intro hact
    rw [if_neg hact]

/-- Witness for C4: marking the active workflow `w1` as deployed with
no explicit timestamp puts a now-stamped entry in the registry and the
workflow store and rewrites the persisted blob. -/
theorem setDeploymentStatus_reconciles_witness :
    statusGet (setDeploymentStatus cenv0 reg0 wf0 (some "w1") true none
        (some "k")).registry.deploymentStatuses "w1" =
      some { isDeployed := true, deployedAt := some 777, apiKey := some "k",
             needsRedeployment := some false } ∧
    (setDeploymentStatus cenv0 reg0 wf0 (some "w1") true none
        (some "k")).workflowStore.isDeployed = true ∧
    (setDeploymentStatus cenv0 reg0 wf0 (some "w1") true none
        (some "k")).saves =
      [("w1",
        { blob0 with
          isDeployed := some true
          deployedAt := some 777
          deploymentStatuses := some [("w1",
            { isDeployed := true, deployedAt := some 777, apiKey := some "k",
              needsRedeployment := some false })] })] := by
  have h := setDeploymentStatus_reconciles cenv0 reg0 wf0 (some "w1") true
    none (some "k") "w1" blob0 rfl (by decide) rfl
  refine ⟨?_, (h.2.2.2.2.1 rfl).1, ?_⟩
  · rw [h.1]
    rfl
  · rw [h.2.2.2.2.2.2]
    rfl

/-- C8 (workspace-switch reset): `setActiveWorkspace(id)` with a new
workspace id and no transition in progress resets the workflow store
to an empty graph (no blocks, edges or loops, not deployed, empty
deployment statuses, a fresh single-entry history), empties the
subblock store's `workflowValues` and `toolParams`, clears the
registry's workflows map with `activeWorkflowId` null and
`activeWorkspaceId` set to `id`, persists the active-workspace key,
and then re-fetches workflows; when `id` is already active or a
transition is in progress, nothing changes. -/
theorem setActiveWorkspace_resets (now : Int) (s : ClientStores)
    (id : String) :
    (s.registry.activeWorkspaceId ≠ some id → s.transitioning = false →
      setActiveWorkspace now s id =
        ⟨⟨{ s.registry with
              isLoading := true
              workflows := []
              activeWorkspaceId := some id
              activeWorkflowId := none },
           { s.workflowStore with
              blocks := []
              edges := []
              loops := []
              isDeployed := false
              deployedAt := none
              deploymentStatuses := []
              hasActiveSchedule := false
              history := freshHistory now
              lastSaved := some now },
           ⟨[], []⟩, true⟩,
          [("active-workspace-id", id)], true, true⟩) ∧
    (s.registry.activeWorkspaceId = some id ∨ s.transitioning = true →
      setActiveWorkspace now s id = ⟨s, [], false, false⟩) := by
  constructor
  · intro h1 h2
    unfold setActiveWorkspace
    rw [if_neg h1, if_neg (by simp [h2])]
    rfl
  · intro h
    unfold setActiveWorkspace
    rcases h with h | h
    · rw [if_pos h]
    · by_cases h1 : s.registry.activeWorkspaceId = some id
      · rw [if_pos h1]
      · rw [if_neg h1, if_pos (by simp [h])]

/-- Witness for C8: switching `stores0` from workspace `A` to `B`
resets both stores and clears the registry; switching to `A` again is
a no-op. -/
theorem setActiveWorkspace_resets_witness :
    setActiveWorkspace 9 stores0 "B" =
      ⟨⟨{ isLoading := true
          workflows := []
          activeWorkspaceId := some "B"
          activeWorkflowId := none },
         { history := freshHistory 9, lastSaved := some 9 },
         ⟨[], []⟩, true⟩,
        [("active-workspace-id", "B")], true, true⟩ ∧
    setActiveWorkspace 9 stores0 "A" = ⟨stores0, [], false, false⟩ := by
  constructor
  · rw [(setActiveWorkspace_resets 9 stores0 "B").1 (by decide) rfl]
    rfl
  · exact (setActiveWorkspace_resets 9 stores0 "A").2 (Or.inl rfl)

end SimSync
